import Mathlib

/-!
Verification of the GDAN workspace-provisioning scripts
(`gdan/stddata_new.py`, `gdan/analyses_new.py`, `gdan/gdac_new.py`).

The scripts orchestrate remote calls into the `fissfc` workspace-management
client.  We embed every function of the repository that the claims touch:

* the Python string primitives the scripts rely on (`strip`, `rstrip`,
  `strip(chars)`, `lower`, `split(sep)`, `endswith`, substring containment),
  with Python semantics;
* the pure helpers `get_configs`, `remove_suffix`, `valid_datestamp`,
  `analyses_sset_list`, `load_attributes`, `create_workspace`;
* the `main` entry points of the three scripts as trace-producing functions:
  each remote invocation is recorded as the list of string arguments handed
  to the client, in program order, together with the outcome of the run
  (normal completion, `sys.exit`, or an uncaught Python exception).

Environment inputs (command-line arguments after parsing, responses of the
remote service, confirmation-prompt answers, file contents) are fields of
explicit environment structures, so a run of a script is a pure function of
its environment.
-/

/-- One remote invocation, recorded as the argument list handed to the
`fissfc`/`call_fiss` entry point (without the constant `["fissfc", "-V"]`
prefix added by each script's local `fissfc` wrapper). -/
abbrev Call := List String

/-- The command word of a recorded call.  `stddata_new.py` and `gdac_new.py`
pass a leading `-y` flag on some invocations, which we skip over. -/
def callName (c : Call) : String :=
  match c with
  | [] => ""
  | "-y" :: rest =>
    match rest with
    | [] => ""
    | n :: _ => n
  | n :: _ => n

/-- How a run of a script ends: fell off the end of `main`, called
`sys.exit` (Python exits with code 1 when given a message string, 0 when
given no argument), or raised an uncaught exception. -/
inductive Outcome where
  | completed
  | exited (code : Nat)
  | pyError (msg : String)
deriving Repr, DecidableEq

/-! ## Python string primitives -/

/-- The ASCII whitespace characters stripped by Python's `str.strip()`. -/
def isPySpace (c : Char) : Bool :=
  c = ' ' || c = '\t' || c = '\n' || c = '\x0d' || c = '\x0b' || c = '\x0c'

/-- Remove the longest suffix of characters satisfying `p`. -/
def dropTrailing (p : Char → Bool) (l : List Char) : List Char :=
  (l.reverse.dropWhile p).reverse

/-- Python `str.strip()`: remove leading and trailing whitespace. -/
def pyStrip (s : String) : String :=
  ⟨dropTrailing isPySpace (s.data.dropWhile isPySpace)⟩

/-- Python `str.rstrip(c)` for a one-character set: remove every trailing
occurrence of `c`. -/
def pyRstripChar (c : Char) (s : String) : String :=
  ⟨dropTrailing (· = c) s.data⟩

/-- Python `str.strip(c)` for a one-character set: remove every leading and
trailing occurrence of `c`. -/
def pyStripChar (c : Char) (s : String) : String :=
  ⟨dropTrailing (· = c) (s.data.dropWhile (· = c))⟩

/-- Python `s.endswith(c)` for a single character `c`. -/
def pyEndsWith (s : String) (c : Char) : Bool :=
  s.data.getLast? = some c

/-- Python `suffix in`-style containment is not needed; this is
`s.endswith(suffix)` for a multi-character suffix. -/
def pyEndsWithStr (s suffix : String) : Bool :=
  suffix.data.isSuffixOf s.data

/-- Does `pat` occur as a contiguous subsequence of `l`?  (Python's
`pat in s` on strings.) -/
def containsSeq (pat : List Char) : List Char → Bool
  | [] => pat.isEmpty
  | c :: rest => pat.isPrefixOf (c :: rest) || containsSeq pat rest

/-- Python `pat in s` substring containment. -/
def pyContains (s pat : String) : Bool :=
  containsSeq pat.data s.data

/-- Python `str.lower()` (the scripts only feed it ASCII names). -/
def pyLower (s : String) : String :=
  ⟨s.data.map Char.toLower⟩

/-- Python `s.split(sep)` for a one-character separator: `"".split(sep)`
is `[""]`, adjacent separators produce empty fields. -/
def pySplitCharList (sep : Char) : List Char → List (List Char)
  | [] => [[]]
  | c :: rest =>
    match pySplitCharList sep rest with
    | [] => [[c]]
    | w :: ws => if c = sep then [] :: w :: ws else (c :: w) :: ws

/-- Python `s.split(sep)` on strings, one-character separator. -/
def pySplit (sep : Char) (s : String) : List String :=
  (pySplitCharList sep s.data).map (fun l => ⟨l⟩)

/-! ## `get_configs` (identical in all three scripts)

`analyses_new.get_configs` iterates an already-open file; the other two open
the file by name first.  All three run the same per-line logic:

    config = line.strip()
    if config.endswith(';') and '->' not in config:
        yield config.rstrip(';').strip('"')
-/

/-- The DOT-file scanner `get_configs`, over the file's list of lines. -/
def get_configs : List String → List String
  | [] => []
  | line :: rest =>
    let config := pyStrip line
    if pyEndsWith config ';' && !(pyContains config "->") then
      pyStripChar '"' (pyRstripChar ';' config) :: get_configs rest
    else
      get_configs rest

/-- Restatement of claim C1's description of `get_configs`: a filter over
the lines followed by a map, in file order. -/
def get_configs_claimed (workflow : List String) : List String :=
  (workflow.filter fun line =>
      pyEndsWith (pyStrip line) ';' && !(pyContains (pyStrip line) "->")).map
    fun line => pyStripChar '"' (pyRstripChar ';' (pyStrip line))

/-! ## `remove_suffix` (analyses_new.py)

    def remove_suffix(sset_name):
        """If more than one hyphen in sset_name, remove last hyphen and
        everything after it"""
        name_fields = sset_name.split('-')
        if len(name_fields > 2):
            return '-'.join(name_fields[:-1])
        return sset_name

The guard reads `len(name_fields > 2)`, not `len(name_fields) > 2`.  Under
Python 3 the comparison `list > int` raises `TypeError` immediately; under
Python 2 the comparison evaluates to a `bool`, and `len` of a `bool` raises
`TypeError`.  Either way the function raises on every input. -/

/-- Function `remove_suffix` as written: evaluating the guard raises `TypeError`
before any branch can return. -/
def remove_suffix (sset_name : String) : Except String String :=
  let _name_fields := pySplit '-' sset_name
  .error "TypeError: object of type int and list cannot be compared or measured by len"

/-- The behaviour described by `remove_suffix`'s own docstring (and by
claim C8): with more than one hyphen, drop the last hyphen and everything
after it; otherwise return the name unchanged. -/
def remove_suffix_doc (sset_name : String) : String :=
  let name_fields := pySplit '-' sset_name
  if name_fields.length > 2 then String.intercalate "-" name_fields.dropLast
  else sset_name

/-! ## `valid_datestamp` (analyses_new.py)

    if re.match(r'^[2-9][0-9]{3}_[0-1][0-9]_[0-3][0-9]$', datestamp):
        return datestamp
    raise ArgumentTypeError(...)

`re.match` anchors at the start; `$` (without `re.MULTILINE`) matches at the
end of the string or just before a single newline at the end of the string,
so a datestamp with one trailing `'\n'` is also accepted. -/

/-- Character class `[0-9]`. -/
def isDigit09 (c : Char) : Bool :=
  '0' ≤ c && c ≤ '9'

/-- Does a character list match `[2-9][0-9]{3}_[0-1][0-9]_[0-3][0-9]`
exactly (ten characters)? -/
def datestampCore : List Char → Bool
  | [y0, y1, y2, y3, u1, m0, m1, u2, d0, d1] =>
    ('2' ≤ y0 && y0 ≤ '9') && isDigit09 y1 && isDigit09 y2 && isDigit09 y3 &&
    u1 = '_' && ('0' ≤ m0 && m0 ≤ '1') && isDigit09 m1 &&
    u2 = '_' && ('0' ≤ d0 && d0 ≤ '3') && isDigit09 d1
  | _ => false

/-- Python's `re.match(r'^...$', s)` for the datestamp pattern: the whole
string matches, or all but a single trailing newline matches. -/
def pyDatestampMatch (s : String) : Bool :=
  datestampCore s.data ||
    (s.data.getLast? = some '\n' && datestampCore s.data.dropLast)

/-- Function `valid_datestamp` as written: return the argument unchanged when the
regex matches, raise `ArgumentTypeError` otherwise. -/
def valid_datestamp (datestamp : String) : Except String String :=
  if pyDatestampMatch datestamp then .ok datestamp
  else .error ("Malformed datestamp: " ++ datestamp ++ " (must be YYYY_MM_DD)")

/-- The acceptance set claim C10 describes: an exact match of
`[2-9][0-9]{3}_[0-1][0-9]_[0-3][0-9]`, nothing else. -/
def datestampClaimed (s : String) : Bool :=
  datestampCore s.data

/-! ## `analyses_sset_list` (analyses_new.py)

A generator: it first issues one `sset_list` remote call, then yields a
subset of the returned names.  With `user_ssets` given it yields the names
that are members of `user_ssets`; otherwise it keeps or drops each name by
cohort and suffix.  `sset_lower.split('-')[-2]` raises `IndexError` when a
name has fewer than two hyphen-separated fields, aborting the iteration at
that element.  We model the yield sequence as the list of names yielded
before either exhaustion (`true`) or the `IndexError` (`false`). -/

/-- One filtering step of the `user_ssets is None` branch of
`analyses_sset_list`: `none` when the name is not yielded, `some` when it
is.  Callable only when the split has at least two fields (the reversed
split exposes the `[-2]` index). -/
def ssetKeep (sset : String) (sset_cohort : String) : Option String :=
  let sset_lower := pyLower sset
  if ["stes", "gbmlgg", "kipan", "pangi"].contains sset_cohort then none
  else if pyEndsWithStr sset_lower "laml-tb" then some sset
  else if pyEndsWithStr sset_lower "skcm-tm" then some sset
  else if pyEndsWithStr sset_lower "-tp" &&
          !(["skcm", "laml"].contains sset_cohort) then some sset
  else none

/-- The yields of the `user_ssets is None` branch, with the flag recording
whether iteration finished without an `IndexError`. -/
def ssetDefaultStream : List String → List String × Bool
  | [] => ([], true)
  | sset :: rest =>
    match (pySplit '-' (pyLower sset)).reverse with
    | _ :: sset_cohort :: _ =>
      let (t, ok) := ssetDefaultStream rest
      match ssetKeep sset sset_cohort with
      | some s => (s :: t, ok)
      | none => (t, ok)
    | _ => ([], false)

/-- The yields of `analyses_sset_list` after the `sset_list` call returned
`serverSsets`, with the no-`IndexError` flag. -/
def ssetStream (serverSsets : List String) (user_ssets : Option (List String)) :
    List String × Bool :=
  match user_ssets with
  | some us => (serverSsets.filter (fun s => us.contains s), true)
  | none => ssetDefaultStream serverSsets

/-- The full yield list of `analyses_sset_list` as a fallible value: `IndexError`
when some name in the default branch has fewer than two hyphen fields. -/
def analyses_sset_list (serverSsets : List String)
    (user_ssets : Option (List String)) : Except String (List String) :=
  match ssetStream serverSsets user_ssets with
  | (l, true) => .ok l
  | (_, false) => .error "IndexError: list index out of range"

/-- The second-to-last hyphen field of the lowercased name, as claim C9
words it (defaulting when fewer than two fields, a case C9 assumes away). -/
def cohortOf (sset : String) : String :=
  ((pySplit '-' (pyLower sset)).reverse.getD 1 "")

/-- The keep predicate of claim C9 for the `user_ssets is None` branch. -/
def ssetClaimedPred (sset : String) : Bool :=
  let low := pyLower sset
  !(["stes", "gbmlgg", "kipan", "pangi"].contains (cohortOf sset)) &&
    (pyEndsWithStr low "laml-tb" || pyEndsWithStr low "skcm-tm" ||
      (pyEndsWithStr low "-tp" && !(["skcm", "laml"].contains (cohortOf sset))))

/-! ## `load_attributes` (identical in analyses_new.py and gdac_new.py)

    attr_reader = csv.DictReader(attributes, dialect='excel-tab')
    attr_dict = dict()
    for row in attr_reader:
        attr_dict[row[attr_reader.fieldnames[0]]] = \
                    {field: row[field] for field in attr_reader.fieldnames[1:]}
    return attr_dict

We model the file as its list of lines.  `DictReader` takes the first line
as the field names, skips blank lines, and builds each row dictionary as
`dict(zip(fieldnames, row))` (the defaults' loadfile has no quoting, so the
`excel-tab` dialect reduces to splitting on tabs; rows shorter than the
header are padded with `None` by `DictReader`, a case the claims' theorems
exclude by requiring full rows).  Python dictionaries keep insertion order
and overwrite in place, which `dictInsert` mirrors. -/

/-- Python `d[k] = v` on an insertion-ordered dictionary rendered as an
association list. -/
def dictInsert {α : Type} (l : List (String × α)) (k : String) (v : α) :
    List (String × α) :=
  if l.any (fun p => p.1 = k) then
    l.map (fun p => if p.1 = k then (k, v) else p)
  else l ++ [(k, v)]

/-- The inner row dictionary `{field: row[field] for field in fieldnames[1:]}`
via `dict(zip(fieldnames, row))`. -/
def rowDict (fieldnames row : List String) : List (String × String) :=
  (fieldnames.drop 1).zip (row.drop 1)

/-- The accumulation loop of `load_attributes`. -/
def loadAttrRows (fieldnames : List String) (acc : List (String × List (String × String))) :
    List String → List (String × List (String × String))
  | [] => acc
  | line :: rest =>
    let row := pySplit '\t' line
    loadAttrRows fieldnames
      (dictInsert acc (row.headD "") (rowDict fieldnames row)) rest

/-- Function `load_attributes` over the file's lines: first line is the header, blank
lines are skipped by `csv`, each remaining line is one row. -/
def load_attributes : List String → List (String × List (String × String))
  | [] => []
  | header :: rest =>
    loadAttrRows (pySplit '\t' header) [] (rest.filter (fun l => l ≠ ""))

/-! ## `analyses_new.main` as a trace function

Environment = parsed command-line arguments plus the responses of the
remote service and of the confirmation prompt.  A run either crashes while
computing the workspace name (`remove_suffix` raises whenever `--ssets`
names at least one sample set), exits early, aborts on an `IndexError`
inside the sample-set generator, or completes at the `supervise` call. -/

structure AnalysesEnv where
  datestamp : String
  methproject : String
  methspace : String
  fromproject : String
  toproject : String
  mcNamespace : String
  workflowLines : List String
  workflowName : String
  user_ssets : Option (List String)
  attrLines : List String
  recover : String
  stddataExists : Bool
  targetExists : Bool
  askDelete : Bool
  serverSsets : List String

/-- The `entity_copy` call for one sample set (analyses_new.py line 188). -/
def aCopyCall (e : AnalysesEnv) (analyses sset : String) : Call :=
  ["entity_copy", "-t", "sample_set", "-e", sset,
   "-w", "stddata__" ++ e.datestamp, "-p", e.fromproject,
   "-W", analyses, "-P", e.toproject, "-l"]

/-- The entity-level `attr_set` call for one (attribute, value) pair of one
sample set (analyses_new.py line 193). -/
def aAttrCall (e : AnalysesEnv) (analyses sset : String) (pr : String × String) : Call :=
  ["attr_set", "-t", "sample_set", "-e", sset, "-a", pr.1,
   "-v", pr.2, "-w", analyses, "-p", e.toproject]

/-- The per-sample-set loop body of `analyses_new.main`: the `entity_copy`
call, then one `attr_set` per attribute pair when the set is a key of the
attributes dictionary. -/
def aEntityBlocks (e : AnalysesEnv) (analyses : String)
    (attrs : List (String × List (String × String))) : List String → List Call
  | [] => []
  | sset :: rest =>
    aCopyCall e analyses sset ::
      ((match attrs.lookup sset with
        | some pairs => pairs.map (aAttrCall e analyses sset)
        | none => []) ++ aEntityBlocks e analyses attrs rest)

/-- The per-entity `attr_set` calls of the sample-set copy loop alone (the
copy loop with its `entity_copy` calls removed). -/
def entityAttrCalls (e : AnalysesEnv) (analyses : String)
    (attrs : List (String × List (String × String))) : List String → List Call
  | [] => []
  | sset :: rest =>
    (match attrs.lookup sset with
     | some pairs => pairs.map (aAttrCall e analyses sset)
     | none => []) ++ entityAttrCalls e analyses attrs rest

/-- The `config_copy` call of `analyses_new.main` for one config name. -/
def aConfigCall (e : AnalysesEnv) (analyses config : String) : Call :=
  ["config_copy", "-c", config, "-n", e.mcNamespace, "-p", e.methproject,
   "-s", e.methspace, "-P", e.toproject, "-S", analyses]

/-- The `supervise` call of `analyses_new.main` (line 197). -/
def aSuperviseCall (e : AnalysesEnv) (analyses : String) : Call :=
  ["supervise", "-p", e.toproject, "-w", analyses,
   "-n", e.mcNamespace, "-j", e.recover, e.workflowName]

/-- Every remote call a full run of `analyses_new.main` issues before the
`supervise` call, in program order: the two existence checks, the optional
delete, create, ACL, the two workspace attributes, the config copies, the
`sset_list` issued when the generator is first pulled, and the sample-set
copy loop. -/
def analysesPre (e : AnalysesEnv) (analyses : String) : List Call :=
  [["space_exists", "-p", e.fromproject, "-w", "stddata__" ++ e.datestamp],
   ["space_exists", "-p", e.toproject, "-w", analyses]] ++
  (if e.targetExists then [["space_delete", "-p", e.toproject, "-w", analyses]]
   else []) ++
  [["space_new", "-p", e.toproject, "-w", analyses],
   ["space_set_acl", "-p", e.toproject, "-w", analyses,
    "-r", "OWNER", "--users", "GROUP_broadgdac@firecloud.org"],
   ["attr_set", "-p", e.toproject, "-w", analyses,
    "-a", "data_version", "-v", e.datestamp],
   ["attr_set", "-p", e.toproject, "-w", analyses, "-a", "package", "-v", "true"]] ++
  (get_configs e.workflowLines).map (aConfigCall e analyses) ++
  [["sset_list", "-p", e.fromproject, "-w", "stddata__" ++ e.datestamp]] ++
  aEntityBlocks e analyses (load_attributes e.attrLines)
    (ssetStream e.serverSsets e.user_ssets).1

/-- The trace of `analyses_new.main` after the workspace name has been
computed successfully. -/
def analysesBody (e : AnalysesEnv) (analyses : String) : List Call × Outcome :=
  if !e.stddataExists then
    ([["space_exists", "-p", e.fromproject, "-w", "stddata__" ++ e.datestamp]],
     .exited 1)
  else if e.targetExists && !e.askDelete then
    ([["space_exists", "-p", e.fromproject, "-w", "stddata__" ++ e.datestamp],
      ["space_exists", "-p", e.toproject, "-w", analyses]], .exited 0)
  else if (ssetStream e.serverSsets e.user_ssets).2 then
    (analysesPre e analyses ++ [aSuperviseCall e analyses], .completed)
  else (analysesPre e analyses, .pyError "IndexError: list index out of range")

/-- Entry point `analyses_new.main`.  With `--ssets` present and non-empty the
workspace-name computation calls `remove_suffix`, which raises, so the run
dies before its first remote call; with it absent the workspace is
`analyses__<datestamp>`.  (An empty `--ssets` list cannot be produced by
`argparse` with `nargs='+'`, but the generator expression then never calls
`remove_suffix` and the name degenerates to `awg___<datestamp>`.) -/
def analyses_main (e : AnalysesEnv) : List Call × Outcome :=
  match e.user_ssets with
  | some (_ :: _) =>
    ([], .pyError "TypeError: object of type int and list cannot be compared or measured by len")
  | some [] => analysesBody e ("awg_" ++ "" ++ "__" ++ e.datestamp)
  | none => analysesBody e ("analyses" ++ "__" ++ e.datestamp)

/-! ## `stddata_new.main` as a trace function

`datestamp` is the basename of `realpath(loadfile_root/datestamp)`; the
three loadfile groups are the results of the three `glob` patterns, in glob
order.  The `isdir` check, logging and `get_cohort` are local and produce no
remote calls. -/

structure StddataEnv where
  methproject : String
  methspace : String
  toproject : String
  mcNamespace : String
  workflowPath : String
  workflowLines : List String
  recover : String
  datestamp : String
  loadfilesIsDir : Bool
  spaceExists : Bool
  askDelete : Bool
  participantFiles : List String
  sampleFiles : List String
  ssetFiles : List String

/-- The `config_copy` call of `stddata_new.main` for one config name. -/
def sConfigCall (e : StddataEnv) (config : String) : Call :=
  ["config_copy", "-c", config, "-n", e.mcNamespace, "-p", e.methproject,
   "-s", e.methspace, "-P", e.toproject, "-S", "stddata__" ++ e.datestamp]

/-- The `entity_import` call of `stddata_new.main` for one loadfile. -/
def sImportCall (e : StddataEnv) (loadfile : String) : Call :=
  ["entity_import", "-p", e.toproject, "-w", "stddata__" ++ e.datestamp,
   "-f", loadfile]

/-- The `supervise` call of `stddata_new.main` (line 134). -/
def sSuperviseCall (e : StddataEnv) : Call :=
  ["-y", "supervise", "-p", e.toproject, "-w", "stddata__" ++ e.datestamp,
   "-n", e.mcNamespace, "-j", e.recover, e.workflowPath]

/-- Every remote call a full run of `stddata_new.main` issues before the
`supervise` call, in program order: existence check, optional delete,
create, ACL, the two workspace attributes, the config copies, and the
three groups of loadfile imports. -/
def stddataPre (e : StddataEnv) : List Call :=
  [["space_exists", "-p", e.toproject, "-w", "stddata__" ++ e.datestamp]] ++
  (if e.spaceExists then
    [["-y", "space_delete", "-p", e.toproject, "-w", "stddata__" ++ e.datestamp]]
   else []) ++
  [["space_new", "-p", e.toproject, "-w", "stddata__" ++ e.datestamp],
   ["space_set_acl", "-p", e.toproject, "-w", "stddata__" ++ e.datestamp,
    "-r", "OWNER", "--users", "GROUP_broadgdac@firecloud.org"],
   ["-y", "attr_set", "-p", e.toproject, "-w", "stddata__" ++ e.datestamp,
    "-a", "data_version", "-v", e.datestamp],
   ["-y", "attr_set", "-p", e.toproject, "-w", "stddata__" ++ e.datestamp,
    "-a", "package", "-v", "true"]] ++
  (get_configs e.workflowLines).map (sConfigCall e) ++
  (e.participantFiles.map (sImportCall e) ++
   e.sampleFiles.map (sImportCall e) ++
   e.ssetFiles.map (sImportCall e))

/-- Entry point `stddata_new.main`. -/
def stddata_main (e : StddataEnv) : List Call × Outcome :=
  if !e.loadfilesIsDir then ([], .exited 1)
  else if e.spaceExists && !e.askDelete then
    ([["space_exists", "-p", e.toproject, "-w", "stddata__" ++ e.datestamp]],
     .exited 0)
  else (stddataPre e ++ [sSuperviseCall e], .completed)

/-! ## `gdac_new.create_workspace` and `gdac_new.main`

`create_workspace` loops (by recursion) until a workspace name is settled:
each round issues one `space_exists` call and, depending on its answer and
the user's prompt answers, either renames and retries, returns the existing
workspace (`new = False`), or creates the workspace (`new = True`).  One
`WsIter` supplies the environment of one round; a run that never settles
consumes the whole list and is modelled as `none`. -/

structure WsIter where
  spaceExists : Bool
  useSuffix : Bool
  initExisting : Bool
  inputName : String

/-- Function `gdac_new.create_workspace`, returning the remote-call trace, the final
workspace name and the `new` flag. -/
def create_workspace (project username : String) :
    String → List WsIter → Option (List Call × String × Bool)
  | _, [] => none
  | workspace, it :: rest =>
    let ex : Call := ["space_exists", "-p", project, "-w", workspace]
    if it.spaceExists then
      if !(pyEndsWithStr workspace username) && it.useSuffix then
        match create_workspace project username (workspace ++ "__" ++ username) rest with
        | some (tr, nm, b) => some (ex :: tr, nm, b)
        | none => none
      else if it.initExisting then some ([ex], workspace, false)
      else
        match create_workspace project username it.inputName rest with
        | some (tr, nm, b) => some (ex :: tr, nm, b)
        | none => none
    else
      some ([ex, ["space_new", "-p", project, "-w", workspace]], workspace, true)

/-- Environment of a `gdac_new.main` run.  `workspace0` is `args.workspace`
after the `awg_ + cohort` default; `entities` is `args.entities` with `[]`
standing for both an absent and an empty list (the code only tests its
truthiness); `loadfilesExist` is the conjunction of the three
`os.path.isfile` checks.  `get_ssets`, the dashboard cron job and all
logging are local and leave no remote call in the trace. -/
structure GdacEnv where
  project : String
  mcNamespace : String
  fromproject : String
  fromspace : String
  username : String
  workspace0 : String
  iters : List WsIter
  owners : List String
  readers : List String
  writers : List String
  entities : List String
  loadfilesExist : Bool
  cohort : String
  attrLines : List String
  workflowPath : String
  workflowLines : List String
  analysesWfPath : String
  analysesWfLines : List String
  superviseOk : Bool

/-- One `set_acl` step of `gdac_new.main`: a direct `space_set_acl` library
call (not routed through the `fissfc` wrapper), skipped when the user list
is falsy. -/
def gAclCall (role : String) (users : List String) : List Call :=
  if users = [] then [] else [["space_set_acl", "-r", role, "--users"] ++ users]

/-- The `config_copy` call of `gdac_new.main` for one config name. -/
def gConfigCall (e : GdacEnv) (ws config : String) : Call :=
  ["config_copy", "-c", config, "-n", e.mcNamespace, "-p", e.fromproject,
   "-s", e.fromspace, "-P", e.project, "-S", ws]

/-- The entity-level `attr_set` calls of the existing-workspace branch of
`gdac_new.main` for the listed entities. -/
def gAttrBlocks (e : GdacEnv) (ws : String)
    (attrs : List (String × List (String × String))) : List String → List Call
  | [] => []
  | sset :: rest =>
    (match attrs.lookup sset with
     | some pairs =>
       pairs.map (fun pr =>
         ["attr_set", "-t", "sample_set", "-e", sset, "-a", pr.1,
          "-v", pr.2, "-w", ws, "-p", e.project])
     | none => []) ++ gAttrBlocks e ws attrs rest

/-- The `supervise` call of `gdac_new.main`. -/
def gSuperviseCall (e : GdacEnv) (ws wf : String) : Call :=
  ["-y", "supervise", "-p", e.project, "-w", ws, "-n", e.mcNamespace] ++
    (if e.entities = [] then [] else ["-s"] ++ e.entities) ++
    ["-j", ws ++ ".json", wf]

/-- The calls of the fresh-workspace branch of `gdac_new.main` between
`create_workspace` and `supervise`: ACLs, `package` attribute, the three
entity imports, and the stddata-workflow config copies. -/
def gdacNewPre (e : GdacEnv) (ws : String) : List Call :=
  (gAclCall "OWNER" e.owners ++ gAclCall "READER" e.readers ++
   gAclCall "WRITER" e.writers) ++
  [["-y", "attr_set", "-p", e.project, "-w", ws, "-a", "package", "-v", "true"]] ++
  [e.cohort ++ ".Participants.loadfile.txt",
   e.cohort ++ ".Samples.loadfile.txt",
   e.cohort ++ ".SampleSet.loadfile.txt"].map
    (fun f => ["entity_import", "-p", e.project, "-w", ws, "-f", f]) ++
  (get_configs e.workflowLines).map (gConfigCall e ws)

/-- The calls of the existing-workspace branch of `gdac_new.main` between
`create_workspace` and `supervise`: the per-entity attribute overrides and
the analyses-workflow config copies. -/
def gdacOldPre (e : GdacEnv) (ws : String) : List Call :=
  gAttrBlocks e ws (load_attributes e.attrLines) e.entities ++
  (get_configs e.analysesWfLines).map (gConfigCall e ws)

/-- Entry point `gdac_new.main`: settle the workspace via `create_workspace`, then
either provision a fresh workspace (loadfile check, ACLs, `package`
attribute, three `entity_import`s) or set custom attributes on the listed
entities of an existing one, copy the method configs of the branch's
workflow file, and supervise.  A failing `supervise` is caught and turned
into `sys.exit(fail_msg)`. -/
def gdacBody (e : GdacEnv) (t0 : List Call) (ws : String) (isNew : Bool) :
    List Call × Outcome :=
  let fin : Outcome := if e.superviseOk then .completed else .exited 1
  if isNew then
    if !e.loadfilesExist then (t0, .exited 1)
    else (t0 ++ gdacNewPre e ws ++ [gSuperviseCall e ws e.workflowPath], fin)
  else if e.entities = [] then (t0, .exited 1)
  else (t0 ++ gdacOldPre e ws ++ [gSuperviseCall e ws e.analysesWfPath], fin)

def gdac_main (e : GdacEnv) : Option (List Call × Outcome) :=
  match create_workspace e.project e.username e.workspace0 e.iters with
  | none => none
  | some (t0, ws, isNew) => some (gdacBody e t0 ws isNew)

/-! ## Call-order checkers for claim C2

`claimC2Check` scans a trace against the order exactly as claim C2 lists
it: one workspace existence check, an optional delete, create, ACL, the two
workspace attributes (`data_version` then `package`), a run of
`config_copy` calls, a run of entity imports/copies, and a final
`supervise`.  `amendedC2Check` additionally allows what the code actually
does: a second leading existence check (analyses_new checks the source
stddata workspace first), a `sset_list` call before the entity phase, and
entity-level `attr_set` calls directly after each entity copy. -/

/-- Is the call an entity import or an entity copy? -/
def isEntityOp (c : Call) : Bool :=
  callName c == "entity_import" || callName c == "entity_copy"

/-- Consume an optional leading `space_delete`. -/
def delPhase (r : List Call) : List Call :=
  match r with
  | [] => []
  | d :: rest => if callName d == "space_delete" then rest else d :: rest

/-- Consume an optional second leading `space_exists`. -/
def srcCheckPhase (r : List Call) : List Call :=
  match r with
  | [] => []
  | c :: rest => if callName c == "space_exists" then rest else c :: rest

/-- Consume an optional leading `sset_list`. -/
def ssetListPhase (r : List Call) : List Call :=
  match r with
  | [] => []
  | c :: rest => if callName c == "sset_list" then rest else c :: rest

/-- Consume the create / ACL / two-workspace-attribute block.  (That the
two `attr_set` calls set `data_version` and then `package` is checked
separately, by the `wsAttrCalls` conjunct of the order theorems.) -/
def midPhase (r : List Call) : Option (List Call) :=
  match r with
  | cr :: acl :: a1 :: a2 :: r3 =>
    if callName cr == "space_new" && callName acl == "space_set_acl" &&
       callName a1 == "attr_set" && callName a2 == "attr_set" then
      some r3
    else none
  | _ => none

/-- After a leading entity operation: consume further entity operations and
entity-level `attr_set` calls. -/
def entTail : List Call → List Call
  | [] => []
  | c :: rest =>
    if isEntityOp c || callName c == "attr_set" then entTail rest else c :: rest

/-- Consume entity operations, each optionally followed by entity-level
`attr_set` calls: a non-empty such phase must open with an entity
operation, after which entity operations and their `attr_set` calls may
alternate freely. -/
def entPhase : List Call → List Call
  | [] => []
  | c :: rest => if isEntityOp c then entTail rest else c :: rest

/-- The remote-call order exactly as claim C2 states it. -/
def claimC2Check (tr : List Call) : Bool :=
  match tr with
  | [] => false
  | ex :: rest =>
    callName ex == "space_exists" &&
    (match midPhase (delPhase rest) with
     | none => false
     | some r3 =>
       let r4 := r3.dropWhile (fun c => callName c == "config_copy")
       match r4.dropWhile isEntityOp with
       | [sup] => callName sup == "supervise"
       | _ => false)

/-- The remote-call order as amended: claim C2's order plus the code's
extra source-workspace check, `sset_list` call, and per-entity `attr_set`
calls after each copy. -/
def amendedC2Check (tr : List Call) : Bool :=
  match tr with
  | [] => false
  | ex :: rest =>
    callName ex == "space_exists" &&
    (match midPhase (delPhase (srcCheckPhase rest)) with
     | none => false
     | some r3 =>
       let r4 := r3.dropWhile (fun c => callName c == "config_copy")
       match entPhase (ssetListPhase r4) with
       | [sup] => callName sup == "supervise"
       | _ => false)

/-- Number of calls with a given command word in a trace. -/
def countName (n : String) (tr : List Call) : Nat :=
  (tr.filter (fun c => callName c == n)).length

/-- The supervise invocation is the last call of the trace, no earlier call
is a supervise, and its argument list ends with `-j`, the recovery-file
path, and the workflow file. -/
def lastIsSup (tr : List Call) (recov wf : String) : Prop :=
  ∃ pre front, tr = pre ++ [front ++ ["-j", recov, wf]] ∧
    callName (front ++ ["-j", recov, wf]) = "supervise" ∧
    ∀ c ∈ pre, callName c ≠ "supervise"

/-- Is the call an entity-level `attr_set` (as issued in the sample-set
copy loop, with `-t sample_set` right after the command word)? -/
def isEntityAttr (c : Call) : Bool :=
  match c with
  | "attr_set" :: "-t" :: "sample_set" :: _ => true
  | _ => false

/-- Is the call a workspace-level `attr_set`? -/
def isWsAttrPred (c : Call) : Bool :=
  callName c == "attr_set" && !(isEntityAttr c)

/-- The workspace-level `attr_set` calls of a trace, in order. -/
def wsAttrCalls (tr : List Call) : List Call :=
  tr.filter isWsAttrPred

/-- The calls of a trace with a given command word, in order. -/
def callsNamed (n : String) (tr : List Call) : List Call :=
  tr.filter (fun c => callName c == n)

/-! ## Concrete environments used by witnesses and counterexamples -/

/-- A completing `stddata_new` run: loadfile directory present, workspace
not yet existing. -/
def envStd : StddataEnv :=
  StddataEnv.mk "mp" "ms" "tp" "ns" "stddata.dot" ["\"m\";"] "r.json" "2020_01_01"
    true false false ["ACC-TP.Participant.loadfile.txt"]
    ["ACC-TP.Sample.loadfile.txt"] ["ACC-TP.Sample_Set.loadfile.txt"]

/-- A completing `analyses_new` run without `--ssets`: one workflow config,
a server list with one copied set that carries an attribute override and
one without, target workspace not yet existing. -/
def envAna : AnalysesEnv :=
  AnalysesEnv.mk "2020_01_01" "mp" "ms" "fp" "tp" "ns" ["\"cfg\";"] "Analyses.dot"
    none ["sample_set_id\tfoo", "TCGA-ACC-TP\tbar"] "rec.json" true false false
    ["TCGA-ACC-TP", "TCGA-SKCM-TM"]

/-- A completing `gdac_new` run on a fresh workspace. -/
def envGdac : GdacEnv :=
  GdacEnv.mk "p" "ns" "fp" "fs" "u" "w" [WsIter.mk false false false ""] ["o"] [] []
    [] true "TCGA-ACC" [] "stddata.dot" ["\"m\";"] "Analyses.dot" ["\"n\";"] true

/-! ## Theorems -/

/-- C1: for every line of a workflow file, `get_configs` yields a value for
that line if and only if the whitespace-stripped line ends with `;` and
does not contain the substring `->`; the yielded value is the stripped line
with trailing `;` characters removed and surrounding `"` characters
stripped, and values are yielded in file order. -/
theorem C1_get_configs_filter_map :
    ∀ workflow : List String, get_configs workflow = get_configs_claimed workflow := by
  intro w
  induction w with
  | nil => rfl
  | cons line rest ih =>
    by_cases h : (pyEndsWith (pyStrip line) ';' && !(pyContains (pyStrip line) "->")) = true
    · simp only [get_configs, get_configs_claimed, List.filter_cons, h, if_true, List.map_cons]
      exact congrArg _ ih
    · simp only [get_configs, get_configs_claimed, List.filter_cons, h, if_false,
        Bool.false_eq_true]
      exact ih

/-- C8 (code bug): `remove_suffix` raises `TypeError` on every input
because its guard reads `len(name_fields > 2)`; its docstring (and the
claim) instead describe removing the last hyphen field when more than one
hyphen is present.  At the failing input `"a-b-c"` the documented behaviour
is `"a-b"`, the code raises. -/
theorem C8_remove_suffix_raises :
    remove_suffix "a-b-c" =
      .error "TypeError: object of type int and list cannot be compared or measured by len" ∧
    remove_suffix_doc "a-b-c" = "a-b" ∧
    remove_suffix_doc "a-b" = "a-b" ∧
    ∀ s : String, ∃ msg, remove_suffix s = .error msg := by
  refine ⟨rfl, by decide, by decide, fun s => ⟨_, rfl⟩⟩

/-- C10 (amended): `valid_datestamp` returns its argument unchanged if and
only if the argument matches `[2-9][0-9]{3}_[0-1][0-9]_[0-3][0-9]` either
exactly or followed by one trailing newline (Python's `$` also matches just
before a final newline), and raises `ArgumentTypeError` for every other
string. -/
theorem C10_valid_datestamp_amended :
    ∀ s : String,
      (valid_datestamp s = .ok s ↔
        (datestampClaimed s = true ∨
          ∃ t : String, datestampClaimed t = true ∧ s = t ++ "\n")) ∧
      (valid_datestamp s ≠ .ok s → ∃ msg, valid_datestamp s = .error msg) := by
  intro s
  have hmatch : pyDatestampMatch s = true ↔
      (datestampClaimed s = true ∨
        ∃ t : String, datestampClaimed t = true ∧ s = t ++ "\n") := by
    unfold pyDatestampMatch datestampClaimed
    constructor
    · intro h
      rcases (Bool.or_eq_true _ _).mp h with h1 | h2
      · exact Or.inl h1
      · rcases (Bool.and_eq_true _ _).mp h2 with ⟨hl, hd⟩
        have hl' : s.data.getLast? = some '\n' := of_decide_eq_true hl
        refine Or.inr ⟨⟨s.data.dropLast⟩, hd, ?_⟩
        have hne : s.data ≠ [] := by
          intro hnil
          rw [hnil] at hl'
          exact Option.noConfusion hl'
        have hlast : s.data.getLast hne = '\n' := by
          have := List.getLast?_eq_getLast s.data hne
          rw [this] at hl'
          exact Option.some.inj hl'
        have hdata : s.data = s.data.dropLast ++ ['\n'] := by
          conv_lhs => rw [← List.dropLast_concat_getLast hne]
          rw [hlast]
        cases s with
        | mk d => exact congrArg String.mk hdata
    · intro h
      rcases h with h1 | ⟨t, ht, hst⟩
      · exact (Bool.or_eq_true _ _).mpr (Or.inl h1)
      · refine (Bool.or_eq_true _ _).mpr (Or.inr ((Bool.and_eq_true _ _).mpr ⟨?_, ?_⟩))
        · refine decide_eq_true ?_
          rw [hst]
          show (t.data ++ "\n".data).getLast? = some '\n'
          exact List.getLast?_concat t.data
        · rw [hst]
          show datestampCore (t.data ++ "\n".data).dropLast = true
          rw [List.dropLast_concat]
          exact ht
  constructor
  · constructor
    · intro h
      refine hmatch.mp ?_
      by_contra hm
      have hm' : pyDatestampMatch s = false := Bool.eq_false_iff.mpr hm
      unfold valid_datestamp at h
      rw [hm'] at h
      exact Except.noConfusion h
    · intro h
      unfold valid_datestamp
      rw [hmatch.mpr h]
      rfl
  · intro hne
    unfold valid_datestamp at hne ⊢
    by_cases hm : pyDatestampMatch s = true
    · rw [hm] at hne
      exact absurd rfl hne
    · have hm' : pyDatestampMatch s = false := Bool.eq_false_iff.mpr hm
      rw [hm']
      exact ⟨_, rfl⟩

/-- C10 counterexample: the claim's acceptance set excludes
`"2020_11_29\n"`, yet `valid_datestamp` returns it unchanged. -/
theorem C10_counterexample :
    valid_datestamp "2020_11_29\n" = .ok "2020_11_29\n" ∧
    datestampClaimed "2020_11_29\n" = false := by
  exact ⟨rfl, by decide⟩

/-- C10 witness: the amended theorem applied at `"1999_01_01"` (year field
starts below 2) yields the `ArgumentTypeError` branch. -/
theorem C10_witness :
    ∃ msg, valid_datestamp "1999_01_01" = .error msg :=
  (C10_valid_datestamp_amended "1999_01_01").2 (by
    intro h
    rw [show valid_datestamp "1999_01_01" =
          Except.error "Malformed datestamp: 1999_01_01 (must be YYYY_MM_DD)" from rfl] at h
    exact Except.noConfusion h)

/-- With the cohort field as claim C9 computes it, the code's keep/skip
decision agrees with the claim's predicate. -/
theorem ssetKeep_eq_claimed (s : String) :
    ssetKeep s (cohortOf s) = if ssetClaimedPred s = true then some s else none := by
  by_cases hA : (cohortOf s = "stes" ∨ cohortOf s = "gbmlgg" ∨ cohortOf s = "kipan" ∨
      cohortOf s = "pangi")
  · simp [ssetKeep, ssetClaimedPred, hA]
  · by_cases hB : pyEndsWithStr (pyLower s) "laml-tb" = true
    · simp [ssetKeep, ssetClaimedPred, hA, hB]
    · by_cases hC : pyEndsWithStr (pyLower s) "skcm-tm" = true
      · simp [ssetKeep, ssetClaimedPred, hA, hB, hC]
      · by_cases hD : (pyEndsWithStr (pyLower s) "-tp" = true ∧ ¬cohortOf s = "skcm" ∧
            ¬cohortOf s = "laml")
        · simp [ssetKeep, ssetClaimedPred, hA, hB, hC, hD]
        · simp [ssetKeep, ssetClaimedPred, hA, hB, hC, hD]

/-- When every server name has at least two hyphen fields, the default
branch of the generator never hits its `IndexError` and yields exactly the
claim's filter, in server order. -/
theorem ssetDefaultStream_filter (l : List String)
    (h : ∀ s ∈ l, 2 ≤ (pySplit '-' (pyLower s)).length) :
    ssetDefaultStream l = (l.filter ssetClaimedPred, true) := by
  induction l with
  | nil => rfl
  | cons s rest ih =>
    have hlen : 2 ≤ (pySplit '-' (pyLower s)).reverse.length := by
      rw [List.length_reverse]
      exact h s (by simp)
    cases hrev : (pySplit '-' (pyLower s)).reverse with
    | nil =>
      rw [hrev] at hlen
      simp at hlen
    | cons a tl =>
      cases tl with
      | nil =>
        rw [hrev] at hlen
        simp at hlen
      | cons b t =>
        have hb : cohortOf s = b := by
          unfold cohortOf
          rw [hrev]
          rfl
        have ihr := ih (fun x hx => h x (by simp [hx]))
        simp only [ssetDefaultStream, hrev, ihr, List.filter_cons]
        rw [← hb, ssetKeep_eq_claimed s]
        by_cases hp : ssetClaimedPred s = true
        · simp [hp]
        · have hp' := Bool.eq_false_iff.mpr hp
          simp [hp']

/-- C9: with `user_ssets` absent, `analyses_sset_list` yields (in server
order) exactly the names passing the cohort/suffix predicate the claim
describes, provided each name has at least two hyphen fields; with
`user_ssets` given, it yields exactly the server names that are members of
`user_ssets`, in server order. -/
theorem C9_analyses_sset_list :
    ∀ serverSsets : List String,
      ((∀ s ∈ serverSsets, 2 ≤ (pySplit '-' (pyLower s)).length) →
        analyses_sset_list serverSsets none =
          .ok (serverSsets.filter ssetClaimedPred)) ∧
      ∀ us, analyses_sset_list serverSsets (some us) =
          .ok (serverSsets.filter (fun s => us.contains s)) := by
  intro l
  constructor
  · intro h
    unfold analyses_sset_list ssetStream
    rw [ssetDefaultStream_filter l h]
  · intro us
    rfl

/-- C9 witness: the theorem applied to a three-name server list containing
a keeper, an excluded aggregate cohort, and the skcm-tm special case. -/
theorem C9_witness :
    analyses_sset_list ["TCGA-ACC-TP", "TCGA-STES-TP", "TCGA-SKCM-TM"] none =
      .ok (["TCGA-ACC-TP", "TCGA-STES-TP", "TCGA-SKCM-TM"].filter ssetClaimedPred) :=
  (C9_analyses_sset_list _).1 (by decide)

/-- C3: when the target workspace exists and the user declines the deletion
prompt, both scripts exit via `sys.exit()` (status 0) and the whole remote
trace consists of `space_exists` queries only — no delete, create, or any
other mutating call is issued.  (analyses_new reaches its prompt only when
the source workspace exists and the workspace name was computed, i.e.
`--ssets` was absent or degenerate-empty.) -/
theorem C3_decline_keeps_workspace :
    (∀ e : StddataEnv, e.loadfilesIsDir = true → e.spaceExists = true →
      e.askDelete = false →
      (stddata_main e).2 = .exited 0 ∧
      ∀ c ∈ (stddata_main e).1, callName c = "space_exists") ∧
    (∀ e : AnalysesEnv, (e.user_ssets = none ∨ e.user_ssets = some []) →
      e.stddataExists = true → e.targetExists = true → e.askDelete = false →
      (analyses_main e).2 = .exited 0 ∧
      ∀ c ∈ (analyses_main e).1, callName c = "space_exists") := by
  constructor
  · intro e h1 h2 h3
    have hrun : stddata_main e =
        ([["space_exists", "-p", e.toproject, "-w", "stddata__" ++ e.datestamp]],
         .exited 0) := by
      unfold stddata_main
      rw [h1, h2, h3]
      rfl
    rw [hrun]
    refine ⟨rfl, ?_⟩
    intro c hc
    simp only [List.mem_singleton] at hc
    subst hc
    rfl
  · intro e hu h1 h2 h3
    rcases hu with hu | hu
    · have hrun : analyses_main e =
          ([["space_exists", "-p", e.fromproject, "-w", "stddata__" ++ e.datestamp],
            ["space_exists", "-p", e.toproject, "-w", "analyses" ++ "__" ++ e.datestamp]],
           .exited 0) := by
        unfold analyses_main
        rw [hu]
        unfold analysesBody
        rw [h1, h2, h3]
        rfl
      rw [hrun]
      refine ⟨rfl, ?_⟩
      intro c hc
      simp only [List.mem_cons, List.mem_singleton] at hc
      rcases hc with hc | hc | hc
      · subst hc; rfl
      · subst hc; rfl
      · exact absurd hc (by simp)
    · have hrun : analyses_main e =
          ([["space_exists", "-p", e.fromproject, "-w", "stddata__" ++ e.datestamp],
            ["space_exists", "-p", e.toproject, "-w", "awg_" ++ "" ++ "__" ++ e.datestamp]],
           .exited 0) := by
        unfold analyses_main
        rw [hu]
        unfold analysesBody
        rw [h1, h2, h3]
        rfl
      rw [hrun]
      refine ⟨rfl, ?_⟩
      intro c hc
      simp only [List.mem_cons, List.mem_singleton] at hc
      rcases hc with hc | hc | hc
      · subst hc; rfl
      · subst hc; rfl
      · exact absurd hc (by simp)

/-- C3 witness: the stddata branch of the theorem at a concrete declining
environment. -/
theorem C3_witness :
    (stddata_main (StddataEnv.mk "mp" "ms" "tp" "ns" "wf.dot" [] "r.json"
        "2020_01_01" true true false [] [] [])).2 = .exited 0 ∧
    ∀ c ∈ (stddata_main (StddataEnv.mk "mp" "ms" "tp" "ns" "wf.dot" [] "r.json"
        "2020_01_01" true true false [] [] [])).1, callName c = "space_exists" :=
  C3_decline_keeps_workspace.1 _ rfl rfl rfl

/-- C5: when the source workspace `stddata__<datestamp>` does not exist,
analyses_new stops before any mutating remote call: with `--ssets` absent
(or degenerate-empty) the trace is exactly the one `space_exists` query and
the script does `sys.exit(1)`; with `--ssets` given the run dies even
earlier (in `remove_suffix`, before any remote call), and the interpreter
likewise exits with status 1 on the uncaught exception. -/
theorem C5_missing_source_no_mutation :
    ∀ e : AnalysesEnv, e.stddataExists = false →
      ((analyses_main e).1 = [["space_exists", "-p", e.fromproject, "-w",
          "stddata__" ++ e.datestamp]] ∧ (analyses_main e).2 = .exited 1) ∨
      ((analyses_main e).1 = [] ∧ (analyses_main e).2 =
        .pyError "TypeError: object of type int and list cannot be compared or measured by len") := by
  intro e h
  match hu : e.user_ssets with
  | some (s :: rest) =>
    right
    unfold analyses_main
    rw [hu]
    exact ⟨rfl, rfl⟩
  | some [] =>
    left
    unfold analyses_main
    rw [hu]
    unfold analysesBody
    rw [h]
    exact ⟨rfl, rfl⟩
  | none =>
    left
    unfold analyses_main
    rw [hu]
    unfold analysesBody
    rw [h]
    exact ⟨rfl, rfl⟩

/-- C5 witness: the theorem at a concrete environment whose source
workspace is missing. -/
theorem C5_witness :
    ((analyses_main (AnalysesEnv.mk "2020_01_01" "mp" "ms" "fp" "tp" "ns" [] "wf"
        none [] "r" false false false [])).1 =
      [["space_exists", "-p", "fp", "-w", "stddata__" ++ "2020_01_01"]] ∧
     (analyses_main (AnalysesEnv.mk "2020_01_01" "mp" "ms" "fp" "tp" "ns" [] "wf"
        none [] "r" false false false [])).2 = .exited 1) ∨
    ((analyses_main (AnalysesEnv.mk "2020_01_01" "mp" "ms" "fp" "tp" "ns" [] "wf"
        none [] "r" false false false [])).1 = [] ∧
     (analyses_main (AnalysesEnv.mk "2020_01_01" "mp" "ms" "fp" "tp" "ns" [] "wf"
        none [] "r" false false false [])).2 =
       .pyError "TypeError: object of type int and list cannot be compared or measured by len") :=
  C5_missing_source_no_mutation _ rfl

/-- Taking `getLast?` of a cons with a non-empty tail is `getLast?` of the tail. -/
theorem getLast?_cons_of_ne_nil {α : Type} (a : α) {l : List α} (h : l ≠ []) :
    (a :: l).getLast? = l.getLast? := by
  cases l with
  | nil => exact absurd rfl h
  | cons b t => exact List.getLast?_cons_cons

/-- Taking `dropLast` of a cons with a non-empty tail keeps the head. -/
theorem dropLast_cons_of_ne_nil {α : Type} (a : α) {l : List α} (h : l ≠ []) :
    (a :: l).dropLast = a :: l.dropLast := by
  cases l with
  | nil => exact absurd rfl h
  | cons b t => rfl

/-- A list with a `getLast?` value is non-empty. -/
theorem ne_nil_of_getLast?_eq_some {α : Type} {l : List α} {x : α}
    (h : l.getLast? = some x) : l ≠ [] := by
  cases l with
  | nil => exact Option.noConfusion h
  | cons b t => exact List.cons_ne_nil b t

/-- C7: `create_workspace` returns `new = true` only after issuing
`space_new` for a name whose immediately preceding existence check came
back negative (the final two calls of its trace are that check and that
`space_new`, every earlier call is an existence check, and some round saw a
non-existing workspace); it returns `new = false` only after a round in
which the workspace existed and the user confirmed initializing the run in
it, having issued existence checks only, the last one for the returned
name.  In both cases the returned name is the name actually checked or
created, and it can differ from the name passed in (second conjunct). -/
theorem C7_create_workspace :
    (∀ (project username : String) (iters : List WsIter) (ws : String)
      (tr : List Call) (nm : String) (isNew : Bool),
      create_workspace project username ws iters = some (tr, nm, isNew) →
      ((isNew = true →
          tr.getLast? = some ["space_new", "-p", project, "-w", nm] ∧
          tr.dropLast.getLast? = some ["space_exists", "-p", project, "-w", nm] ∧
          (∀ c ∈ tr.dropLast, callName c = "space_exists") ∧
          ∃ it ∈ iters, it.spaceExists = false) ∧
       (isNew = false →
          tr.getLast? = some ["space_exists", "-p", project, "-w", nm] ∧
          (∀ c ∈ tr, callName c = "space_exists") ∧
          ∃ it ∈ iters, it.spaceExists = true ∧ it.initExisting = true))) ∧
    ∃ (project username ws : String) (iters : List WsIter)
      (tr : List Call) (nm : String) (isNew : Bool),
      create_workspace project username ws iters = some (tr, nm, isNew) ∧ nm ≠ ws := by
  constructor
  · intro project username iters
    induction iters with
    | nil =>
      intro ws tr nm isNew h
      simp [create_workspace] at h
    | cons it rest ih =>
      intro ws tr nm isNew h
      unfold create_workspace at h
      by_cases hex : it.spaceExists = true
      · rw [hex] at h
        simp only [if_true] at h
        by_cases hsuf : (!(pyEndsWithStr ws username) && it.useSuffix) = true
        · rw [hsuf] at h
          simp only [if_true] at h
          cases hrec : create_workspace project username (ws ++ "__" ++ username) rest with
          | none =>
            rw [hrec] at h
            exact Option.noConfusion h
          | some v =>
            obtain ⟨tr', nm', b'⟩ := v
            rw [hrec] at h
            have htr : ["space_exists", "-p", project, "-w", ws] :: tr' = tr ∧
                nm' = nm ∧ b' = isNew := by
              have := Option.some.inj h
              exact ⟨congrArg Prod.fst this, congrArg Prod.fst (congrArg Prod.snd this),
                     congrArg Prod.snd (congrArg Prod.snd this)⟩
            obtain ⟨htr1, htr2, htr3⟩ := htr
            subst htr1 htr2 htr3
            have ihr := ih _ _ _ _ hrec
            constructor
            · intro hnew
              obtain ⟨hlast, hprev, hall, hit⟩ := ihr.1 hnew
              have hne : tr' ≠ [] := ne_nil_of_getLast?_eq_some hlast
              refine ⟨?_, ?_, ?_, ?_⟩
              · rw [getLast?_cons_of_ne_nil _ hne]
                exact hlast
              · rw [dropLast_cons_of_ne_nil _ hne]
                rw [getLast?_cons_of_ne_nil]
                · exact hprev
                · exact ne_nil_of_getLast?_eq_some hprev
              · rw [dropLast_cons_of_ne_nil _ hne]
                intro c hc
                rcases List.mem_cons.mp hc with hc | hc
                · subst hc; rfl
                · exact hall c hc
              · obtain ⟨x, hx, hxf⟩ := hit
                exact ⟨x, List.mem_cons_of_mem _ hx, hxf⟩
            · intro hnew
              obtain ⟨hlast, hall, hit⟩ := ihr.2 hnew
              have hne : tr' ≠ [] := ne_nil_of_getLast?_eq_some hlast
              refine ⟨?_, ?_, ?_⟩
              · rw [getLast?_cons_of_ne_nil _ hne]
                exact hlast
              · intro c hc
                rcases List.mem_cons.mp hc with hc | hc
                · subst hc; rfl
                · exact hall c hc
              · obtain ⟨x, hx, hxf⟩ := hit
                exact ⟨x, List.mem_cons_of_mem _ hx, hxf⟩
        · rw [Bool.eq_false_iff.mpr hsuf] at h
          simp only [if_false, Bool.false_eq_true] at h
          by_cases hinit : it.initExisting = true
          · rw [hinit] at h
            simp only [if_true] at h
            have := Option.some.inj h
            have htr1 : [["space_exists", "-p", project, "-w", ws]] = tr :=
              congrArg Prod.fst this
            have htr2 : ws = nm := congrArg Prod.fst (congrArg Prod.snd this)
            have htr3 : false = isNew := congrArg Prod.snd (congrArg Prod.snd this)
            subst htr1 htr2 htr3
            constructor
            · intro hnew
              exact Bool.noConfusion hnew
            · intro _
              refine ⟨rfl, ?_, ⟨it, List.mem_cons_self it rest, hex, hinit⟩⟩
              intro c hc
              simp only [List.mem_singleton] at hc
              subst hc
              rfl
          · rw [Bool.eq_false_iff.mpr hinit] at h
            simp only [if_false, Bool.false_eq_true] at h
            cases hrec : create_workspace project username it.inputName rest with
            | none =>
              rw [hrec] at h
              exact Option.noConfusion h
            | some v =>
              obtain ⟨tr', nm', b'⟩ := v
              rw [hrec] at h
              have := Option.some.inj h
              have htr1 : ["space_exists", "-p", project, "-w", ws] :: tr' = tr :=
                congrArg Prod.fst this
              have htr2 : nm' = nm := congrArg Prod.fst (congrArg Prod.snd this)
              have htr3 : b' = isNew := congrArg Prod.snd (congrArg Prod.snd this)
              subst htr1 htr2 htr3
              have ihr := ih _ _ _ _ hrec
              constructor
              · intro hnew
                obtain ⟨hlast, hprev, hall, hit⟩ := ihr.1 hnew
                have hne : tr' ≠ [] := ne_nil_of_getLast?_eq_some hlast
                refine ⟨?_, ?_, ?_, ?_⟩
                · rw [getLast?_cons_of_ne_nil _ hne]
                  exact hlast
                · rw [dropLast_cons_of_ne_nil _ hne]
                  rw [getLast?_cons_of_ne_nil]
                  · exact hprev
                  · exact ne_nil_of_getLast?_eq_some hprev
                · rw [dropLast_cons_of_ne_nil _ hne]
                  intro c hc
                  rcases List.mem_cons.mp hc with hc | hc
                  · subst hc; rfl
                  · exact hall c hc
                · obtain ⟨x, hx, hxf⟩ := hit
                  exact ⟨x, List.mem_cons_of_mem _ hx, hxf⟩
              · intro hnew
                obtain ⟨hlast, hall, hit⟩ := ihr.2 hnew
                have hne : tr' ≠ [] := ne_nil_of_getLast?_eq_some hlast
                refine ⟨?_, ?_, ?_⟩
                · rw [getLast?_cons_of_ne_nil _ hne]
                  exact hlast
                · intro c hc
                  rcases List.mem_cons.mp hc with hc | hc
                  · subst hc; rfl
                  · exact hall c hc
                · obtain ⟨x, hx, hxf⟩ := hit
                  exact ⟨x, List.mem_cons_of_mem _ hx, hxf⟩
      · rw [Bool.eq_false_iff.mpr hex] at h
        simp only [if_false, Bool.false_eq_true] at h
        have := Option.some.inj h
        have htr1 : [["space_exists", "-p", project, "-w", ws],
            ["space_new", "-p", project, "-w", ws]] = tr := congrArg Prod.fst this
        have htr2 : ws = nm := congrArg Prod.fst (congrArg Prod.snd this)
        have htr3 : true = isNew := congrArg Prod.snd (congrArg Prod.snd this)
        subst htr1 htr2 htr3
        constructor
        · intro _
          refine ⟨rfl, rfl, ?_, ⟨it, List.mem_cons_self it rest,
            Bool.eq_false_iff.mpr hex⟩⟩
          intro c hc
          simp only [List.dropLast] at hc
          simp only [List.mem_singleton] at hc
          subst hc
          rfl
        · intro hnew
          exact Bool.noConfusion hnew
  · refine ⟨"p", "u", "w", [WsIter.mk true true false "", WsIter.mk false false false ""],
      [["space_exists", "-p", "p", "-w", "w"], ["space_exists", "-p", "p", "-w", "w__u"],
       ["space_new", "-p", "p", "-w", "w__u"]], "w__u", true, rfl, ?_⟩
    intro hcontra
    exact absurd (congrArg String.length hcontra) (by decide)

/-- C7 witness: the theorem applied to a one-round environment in which the
workspace exists and the user initializes the run in it. -/
theorem C7_witness :
    ([["space_exists", "-p", "p", "-w", "w"]] : List Call).getLast? =
      some ["space_exists", "-p", "p", "-w", "w"] ∧
    (∀ c ∈ ([["space_exists", "-p", "p", "-w", "w"]] : List Call),
      callName c = "space_exists") ∧
    ∃ it ∈ [WsIter.mk true false true "x"],
      it.spaceExists = true ∧ it.initExisting = true :=
  (C7_create_workspace.1 "p" "u" [WsIter.mk true false true "x"] "w"
    [["space_exists", "-p", "p", "-w", "w"]] "w" false rfl).2 rfl

/-- Transfer a computed command word to a disequality with `supervise`. -/
theorem ne_supervise_of_eq {c : Call} (n : String) (h : callName c = n)
    (hn : n ≠ "supervise") : callName c ≠ "supervise" := h ▸ hn

/-- Every call of the sample-set copy loop is an `entity_copy` or an
entity-level `attr_set`. -/
theorem aEntityBlocks_names (e : AnalysesEnv) (analyses : String)
    (attrs : List (String × List (String × String))) :
    ∀ kept, ∀ c ∈ aEntityBlocks e analyses attrs kept,
      callName c = "entity_copy" ∨ callName c = "attr_set" := by
  intro kept
  induction kept with
  | nil =>
    intro c hc
    exact absurd hc (List.not_mem_nil c)
  | cons s rest ih =>
    intro c hc
    cases hlk : attrs.lookup s with
    | some pairs =>
      simp only [aEntityBlocks, hlk, List.mem_cons, List.mem_append, List.mem_map] at hc
      rcases hc with h | h | h
      · subst h
        left
        rfl
      · obtain ⟨pr, _, rfl⟩ := h
        right
        rfl
      · exact ih c h
    | none =>
      simp only [aEntityBlocks, hlk, List.nil_append, List.mem_cons] at hc
      rcases hc with h | h
      · subst h
        left
        rfl
      · exact ih c h

/-- Every call of gdac_new's custom-attribute loop is an `attr_set`. -/
theorem gAttrBlocks_names (e : GdacEnv) (ws : String)
    (attrs : List (String × List (String × String))) :
    ∀ ents, ∀ c ∈ gAttrBlocks e ws attrs ents, callName c = "attr_set" := by
  intro ents
  induction ents with
  | nil =>
    intro c hc
    exact absurd hc (List.not_mem_nil c)
  | cons s rest ih =>
    intro c hc
    cases hlk : attrs.lookup s with
    | some pairs =>
      simp only [gAttrBlocks, hlk, List.mem_append, List.mem_map] at hc
      rcases hc with ⟨pr, _, rfl⟩ | h
      · rfl
      · exact ih c h
    | none =>
      simp only [gAttrBlocks, hlk, List.nil_append] at hc
      exact ih c hc

/-- Every call of a gdac_new `set_acl` step is a `space_set_acl`. -/
theorem gAclCall_names (role : String) (users : List String) :
    ∀ c ∈ gAclCall role users, callName c = "space_set_acl" := by
  intro c hc
  unfold gAclCall at hc
  by_cases h : users = []
  · rw [if_pos h] at hc
    exact absurd hc (List.not_mem_nil c)
  · rw [if_neg h] at hc
    simp only [List.mem_singleton] at hc
    subst hc
    rfl

/-- Every call `create_workspace` issues is an existence check or a
`space_new`. -/
theorem create_workspace_names :
    ∀ (project username : String) (iters : List WsIter) (ws : String)
      (tr : List Call) (nm : String) (b : Bool),
      create_workspace project username ws iters = some (tr, nm, b) →
      ∀ c ∈ tr, callName c = "space_exists" ∨ callName c = "space_new" := by
  intro project username iters
  induction iters with
  | nil =>
    intro ws tr nm b h
    simp [create_workspace] at h
  | cons it rest ih =>
    intro ws tr nm b h
    unfold create_workspace at h
    by_cases hex : it.spaceExists = true
    · rw [hex] at h
      simp only [if_true] at h
      by_cases hsuf : (!(pyEndsWithStr ws username) && it.useSuffix) = true
      · rw [hsuf] at h
        simp only [if_true] at h
        cases hrec : create_workspace project username (ws ++ "__" ++ username) rest with
        | none =>
          rw [hrec] at h
          exact Option.noConfusion h
        | some v =>
          obtain ⟨tr', nm', b'⟩ := v
          rw [hrec] at h
          have h1 : ["space_exists", "-p", project, "-w", ws] :: tr' = tr :=
            congrArg Prod.fst (Option.some.inj h)
          subst h1
          intro c hc
          rcases List.mem_cons.mp hc with rfl | hc
          · left
            rfl
          · exact ih _ _ _ _ hrec c hc
      · rw [Bool.eq_false_iff.mpr hsuf] at h
        simp only [if_false, Bool.false_eq_true] at h
        by_cases hinit : it.initExisting = true
        · rw [hinit] at h
          simp only [if_true] at h
          have h1 : [["space_exists", "-p", project, "-w", ws]] = tr :=
            congrArg Prod.fst (Option.some.inj h)
          subst h1
          intro c hc
          simp only [List.mem_singleton] at hc
          subst hc
          left
          rfl
        · rw [Bool.eq_false_iff.mpr hinit] at h
          simp only [if_false, Bool.false_eq_true] at h
          cases hrec : create_workspace project username it.inputName rest with
          | none =>
            rw [hrec] at h
            exact Option.noConfusion h
          | some v =>
            obtain ⟨tr', nm', b'⟩ := v
            rw [hrec] at h
            have h1 : ["space_exists", "-p", project, "-w", ws] :: tr' = tr :=
              congrArg Prod.fst (Option.some.inj h)
            subst h1
            intro c hc
            rcases List.mem_cons.mp hc with rfl | hc
            · left
              rfl
            · exact ih _ _ _ _ hrec c hc
    · rw [Bool.eq_false_iff.mpr hex] at h
      simp only [if_false, Bool.false_eq_true] at h
      have h1 : [["space_exists", "-p", project, "-w", ws],
          ["space_new", "-p", project, "-w", ws]] = tr :=
        congrArg Prod.fst (Option.some.inj h)
      subst h1
      intro c hc
      rcases List.mem_cons.mp hc with rfl | hc
      · left
        rfl
      · simp only [List.mem_singleton] at hc
        subst hc
        right
        rfl

/-- No call of `stddataPre` is a supervise. -/
theorem stddataPre_not_supervise (e : StddataEnv) :
    ∀ c ∈ stddataPre e, callName c ≠ "supervise" := by
  intro c hc
  unfold stddataPre at hc
  rcases List.mem_append.mp hc with h | h
  · rcases List.mem_append.mp h with h | h
    · rcases List.mem_append.mp h with h | h
      · rcases List.mem_append.mp h with h | h
        · simp only [List.mem_singleton] at h
          subst h
          exact ne_supervise_of_eq "space_exists" rfl (by decide)
        · by_cases hb : e.spaceExists = true
          · rw [if_pos hb] at h
            simp only [List.mem_singleton] at h
            subst h
            exact ne_supervise_of_eq "space_delete" rfl (by decide)
          · rw [if_neg hb] at h
            exact absurd h (List.not_mem_nil c)
      · simp only [List.mem_cons, List.not_mem_nil, or_false] at h
        rcases h with h | h | h | h
        · subst h
          exact ne_supervise_of_eq "space_new" rfl (by decide)
        · subst h
          exact ne_supervise_of_eq "space_set_acl" rfl (by decide)
        · subst h
          exact ne_supervise_of_eq "attr_set" rfl (by decide)
        · subst h
          exact ne_supervise_of_eq "attr_set" rfl (by decide)
    · obtain ⟨x, _, rfl⟩ := List.mem_map.mp h
      exact ne_supervise_of_eq "config_copy" rfl (by decide)
  · rcases List.mem_append.mp h with h | h
    · rcases List.mem_append.mp h with h | h
      · obtain ⟨x, _, rfl⟩ := List.mem_map.mp h
        exact ne_supervise_of_eq "entity_import" rfl (by decide)
      · obtain ⟨x, _, rfl⟩ := List.mem_map.mp h
        exact ne_supervise_of_eq "entity_import" rfl (by decide)
    · obtain ⟨x, _, rfl⟩ := List.mem_map.mp h
      exact ne_supervise_of_eq "entity_import" rfl (by decide)

/-- No call of `analysesPre` is a supervise. -/
theorem analysesPre_not_supervise (e : AnalysesEnv) (analyses : String) :
    ∀ c ∈ analysesPre e analyses, callName c ≠ "supervise" := by
  intro c hc
  unfold analysesPre at hc
  rcases List.mem_append.mp hc with h | h
  · rcases List.mem_append.mp h with h | h
    · rcases List.mem_append.mp h with h | h
      · rcases List.mem_append.mp h with h | h
        · rcases List.mem_append.mp h with h | h
          · simp only [List.mem_cons, List.not_mem_nil, or_false] at h
            rcases h with h | h
            · subst h
              exact ne_supervise_of_eq "space_exists" rfl (by decide)
            · subst h
              exact ne_supervise_of_eq "space_exists" rfl (by decide)
          · by_cases hb : e.targetExists = true
            · rw [if_pos hb] at h
              simp only [List.mem_singleton] at h
              subst h
              exact ne_supervise_of_eq "space_delete" rfl (by decide)
            · rw [if_neg hb] at h
              exact absurd h (List.not_mem_nil c)
        · simp only [List.mem_cons, List.not_mem_nil, or_false] at h
          rcases h with h | h | h | h
          · subst h
            exact ne_supervise_of_eq "space_new" rfl (by decide)
          · subst h
            exact ne_supervise_of_eq "space_set_acl" rfl (by decide)
          · subst h
            exact ne_supervise_of_eq "attr_set" rfl (by decide)
          · subst h
            exact ne_supervise_of_eq "attr_set" rfl (by decide)
      · obtain ⟨x, _, rfl⟩ := List.mem_map.mp h
        exact ne_supervise_of_eq "config_copy" rfl (by decide)
    · simp only [List.mem_singleton] at h
      subst h
      exact ne_supervise_of_eq "sset_list" rfl (by decide)
  · rcases aEntityBlocks_names e analyses _ _ c h with hn | hn <;> (rw [hn]; decide)

/-- No call of `gdacNewPre` is a supervise. -/
theorem gdacNewPre_not_supervise (e : GdacEnv) (ws : String) :
    ∀ c ∈ gdacNewPre e ws, callName c ≠ "supervise" := by
  intro c hc
  unfold gdacNewPre at hc
  rcases List.mem_append.mp hc with h | h
  · rcases List.mem_append.mp h with h | h
    · rcases List.mem_append.mp h with h | h
      · rcases List.mem_append.mp h with h | h
        · rcases List.mem_append.mp h with h | h
          · rw [gAclCall_names "OWNER" e.owners c h]
            decide
          · rw [gAclCall_names "READER" e.readers c h]
            decide
        · rw [gAclCall_names "WRITER" e.writers c h]
          decide
      · simp only [List.mem_singleton] at h
        subst h
        exact ne_supervise_of_eq "attr_set" rfl (by decide)
    · obtain ⟨x, _, rfl⟩ := List.mem_map.mp h
      exact ne_supervise_of_eq "entity_import" rfl (by decide)
  · obtain ⟨x, _, rfl⟩ := List.mem_map.mp h
    exact ne_supervise_of_eq "config_copy" rfl (by decide)

/-- No call of `gdacOldPre` is a supervise. -/
theorem gdacOldPre_not_supervise (e : GdacEnv) (ws : String) :
    ∀ c ∈ gdacOldPre e ws, callName c ≠ "supervise" := by
  intro c hc
  unfold gdacOldPre at hc
  rcases List.mem_append.mp hc with h | h
  · rw [gAttrBlocks_names e ws _ _ c h]
    decide
  · obtain ⟨x, _, rfl⟩ := List.mem_map.mp h
    exact ne_supervise_of_eq "config_copy" rfl (by decide)

/-- In any run of `analysesBody` whose trace contains a supervise call, the
supervise call is last, unique, and carries `-j recovery_file workflow`. -/
theorem analysesBody_lastIsSup (e : AnalysesEnv) (N : String)
    (hsup : ∃ c ∈ (analysesBody e N).1, callName c = "supervise") :
    lastIsSup (analysesBody e N).1 e.recover e.workflowName := by
  by_cases h1 : e.stddataExists = true
  · by_cases h2 : (e.targetExists && !e.askDelete) = true
    · have hrun : analysesBody e N =
          ([["space_exists", "-p", e.fromproject, "-w", "stddata__" ++ e.datestamp],
            ["space_exists", "-p", e.toproject, "-w", N]], .exited 0) := by
        unfold analysesBody
        rw [h1, h2]
        rfl
      rw [hrun] at hsup
      obtain ⟨c, hc, hname⟩ := hsup
      simp only [List.mem_cons, List.not_mem_nil, or_false] at hc
      rcases hc with hc | hc <;>
        (subst hc; exact absurd hname (ne_supervise_of_eq "space_exists" rfl (by decide)))
    · by_cases h3 : (ssetStream e.serverSsets e.user_ssets).2 = true
      · have hrun : analysesBody e N =
            (analysesPre e N ++ [aSuperviseCall e N], .completed) := by
          unfold analysesBody
          rw [h1, Bool.eq_false_iff.mpr h2, h3]
          rfl
        rw [hrun]
        exact ⟨analysesPre e N,
          ["supervise", "-p", e.toproject, "-w", N, "-n", e.mcNamespace],
          rfl, rfl, analysesPre_not_supervise e N⟩
      · have hrun : analysesBody e N =
            (analysesPre e N, .pyError "IndexError: list index out of range") := by
          unfold analysesBody
          rw [h1, Bool.eq_false_iff.mpr h2, Bool.eq_false_iff.mpr h3]
          rfl
        rw [hrun] at hsup
        obtain ⟨c, hc, hname⟩ := hsup
        exact absurd hname (analysesPre_not_supervise e N c hc)
  · have hrun : analysesBody e N =
        ([["space_exists", "-p", e.fromproject, "-w", "stddata__" ++ e.datestamp]],
         .exited 1) := by
      unfold analysesBody
      rw [Bool.eq_false_iff.mpr h1]
      rfl
    rw [hrun] at hsup
    obtain ⟨c, hc, hname⟩ := hsup
    simp only [List.mem_singleton] at hc
    subst hc
    exact absurd hname (ne_supervise_of_eq "space_exists" rfl (by decide))

/-- C6: in every script, a run whose trace contains a supervise call has it
as the very last remote call, no earlier call is a supervise, and the
supervise argument list ends with `-j`, the recovery-file path, and the
workflow file as its final argument (for gdac_new the recovery file is
`<workspace>.json` and the workflow is the stddata or the analyses DOT file
depending on the branch taken). -/
theorem C6_supervise_last :
    (∀ e : StddataEnv, (∃ c ∈ (stddata_main e).1, callName c = "supervise") →
      lastIsSup (stddata_main e).1 e.recover e.workflowPath) ∧
    (∀ e : AnalysesEnv, (∃ c ∈ (analyses_main e).1, callName c = "supervise") →
      lastIsSup (analyses_main e).1 e.recover e.workflowName) ∧
    (∀ (e : GdacEnv) (tr : List Call) (oc : Outcome), gdac_main e = some (tr, oc) →
      (∃ c ∈ tr, callName c = "supervise") →
      ∃ ws, lastIsSup tr (ws ++ ".json") e.workflowPath ∨
            lastIsSup tr (ws ++ ".json") e.analysesWfPath) := by
  refine ⟨?_, ?_, ?_⟩
  · intro e hsup
    by_cases h1 : e.loadfilesIsDir = true
    · by_cases h2 : (e.spaceExists && !e.askDelete) = true
      · have hrun : stddata_main e =
            ([["space_exists", "-p", e.toproject, "-w", "stddata__" ++ e.datestamp]],
             .exited 0) := by
          unfold stddata_main
          rw [h1, h2]
          rfl
        rw [hrun] at hsup
        obtain ⟨c, hc, hname⟩ := hsup
        simp only [List.mem_singleton] at hc
        subst hc
        exact absurd hname (ne_supervise_of_eq "space_exists" rfl (by decide))
      · have hrun : stddata_main e = (stddataPre e ++ [sSuperviseCall e], .completed) := by
          unfold stddata_main
          rw [h1, Bool.eq_false_iff.mpr h2]
          rfl
        rw [hrun]
        exact ⟨stddataPre e,
          ["-y", "supervise", "-p", e.toproject, "-w", "stddata__" ++ e.datestamp,
           "-n", e.mcNamespace],
          rfl, rfl, stddataPre_not_supervise e⟩
    · have hrun : stddata_main e = ([], .exited 1) := by
        unfold stddata_main
        rw [Bool.eq_false_iff.mpr h1]
        rfl
      rw [hrun] at hsup
      obtain ⟨c, hc, _⟩ := hsup
      exact absurd hc (List.not_mem_nil c)
  · intro e hsup
    match hu : e.user_ssets with
    | some (s :: rest) =>
      have hrun : analyses_main e = ([],
          .pyError "TypeError: object of type int and list cannot be compared or measured by len") := by
        unfold analyses_main
        rw [hu]
      rw [hrun] at hsup
      obtain ⟨c, hc, _⟩ := hsup
      exact absurd hc (List.not_mem_nil c)
    | some [] =>
      have hmain : analyses_main e = analysesBody e ("awg_" ++ "" ++ "__" ++ e.datestamp) := by
        unfold analyses_main
        rw [hu]
      rw [hmain] at hsup ⊢
      exact analysesBody_lastIsSup e _ hsup
    | none =>
      have hmain : analyses_main e = analysesBody e ("analyses" ++ "__" ++ e.datestamp) := by
        unfold analyses_main
        rw [hu]
      rw [hmain] at hsup ⊢
      exact analysesBody_lastIsSup e _ hsup
  · intro e tr oc h hsup
    unfold gdac_main at h
    cases hcw : create_workspace e.project e.username e.workspace0 e.iters with
    | none =>
      rw [hcw] at h
      exact Option.noConfusion h
    | some v =>
      obtain ⟨t0, ws, isNew⟩ := v
      rw [hcw] at h
      have hb : gdacBody e t0 ws isNew = (tr, oc) := Option.some.inj h
      refine ⟨ws, ?_⟩
      by_cases hn : isNew = true
      · by_cases hl : e.loadfilesExist = true
        · have hrun : gdacBody e t0 ws isNew =
              (t0 ++ gdacNewPre e ws ++ [gSuperviseCall e ws e.workflowPath],
               if e.superviseOk then .completed else .exited 1) := by
            unfold gdacBody
            rw [hn, hl]
            rfl
          rw [hrun] at hb
          have htr : t0 ++ gdacNewPre e ws ++ [gSuperviseCall e ws e.workflowPath] = tr :=
            congrArg Prod.fst hb
          subst htr
          left
          refine ⟨t0 ++ gdacNewPre e ws,
            ["-y", "supervise", "-p", e.project, "-w", ws, "-n", e.mcNamespace] ++
              (if e.entities = [] then [] else ["-s"] ++ e.entities), rfl, rfl, ?_⟩
          intro c hc
          rcases List.mem_append.mp hc with hm | hm
          · rcases create_workspace_names _ _ _ _ _ _ _ hcw c hm with hn' | hn'
            · rw [hn']
              decide
            · rw [hn']
              decide
          · exact gdacNewPre_not_supervise e ws c hm
        · have hrun : gdacBody e t0 ws isNew = (t0, .exited 1) := by
            unfold gdacBody
            rw [hn, Bool.eq_false_iff.mpr hl]
            rfl
          rw [hrun] at hb
          have htr : t0 = tr := congrArg Prod.fst hb
          subst htr
          obtain ⟨c, hc, hname⟩ := hsup
          rcases create_workspace_names _ _ _ _ _ _ _ hcw c hc with hn' | hn'
          · rw [hn'] at hname
            exact absurd hname (by decide)
          · rw [hn'] at hname
            exact absurd hname (by decide)
      · by_cases he : e.entities = []
        · have hrun : gdacBody e t0 ws isNew = (t0, .exited 1) := by
            unfold gdacBody
            rw [Bool.eq_false_iff.mpr hn]
            simp only [he]
            rfl
          rw [hrun] at hb
          have htr : t0 = tr := congrArg Prod.fst hb
          subst htr
          obtain ⟨c, hc, hname⟩ := hsup
          rcases create_workspace_names _ _ _ _ _ _ _ hcw c hc with hn' | hn'
          · rw [hn'] at hname
            exact absurd hname (by decide)
          · rw [hn'] at hname
            exact absurd hname (by decide)
        · have hrun : gdacBody e t0 ws isNew =
              (t0 ++ gdacOldPre e ws ++ [gSuperviseCall e ws e.analysesWfPath],
               if e.superviseOk then .completed else .exited 1) := by
            unfold gdacBody
            rw [Bool.eq_false_iff.mpr hn]
            simp only [if_neg he]
            rfl
          rw [hrun] at hb
          have htr : t0 ++ gdacOldPre e ws ++ [gSuperviseCall e ws e.analysesWfPath] = tr :=
            congrArg Prod.fst hb
          subst htr
          right
          refine ⟨t0 ++ gdacOldPre e ws,
            ["-y", "supervise", "-p", e.project, "-w", ws, "-n", e.mcNamespace] ++
              (if e.entities = [] then [] else ["-s"] ++ e.entities), rfl, rfl, ?_⟩
          intro c hc
          rcases List.mem_append.mp hc with hm | hm
          · rcases create_workspace_names _ _ _ _ _ _ _ hcw c hm with hn' | hn'
            · rw [hn']
              decide
            · rw [hn']
              decide
          · exact gdacOldPre_not_supervise e ws c hm

/-- C6 witness: the stddata part of the theorem at a concrete completing
run. -/
theorem C6_witness :
    lastIsSup (stddata_main envStd).1 "r.json" "stddata.dot" :=
  C6_supervise_last.1 envStd (by
    refine ⟨["-y", "supervise", "-p", "tp", "-w", "stddata__2020_01_01",
      "-n", "ns", "-j", "r.json", "stddata.dot"], ?_, rfl⟩
    decide)

/-- A `head?` value is a member. -/
theorem mem_of_head?_eq {α : Type} {l : List α} {x : α} (h : l.head? = some x) :
    x ∈ l := by
  cases l with
  | nil => exact Option.noConfusion h
  | cons a t =>
    have : a = x := Option.some.inj h
    subst this
    exact List.mem_cons_self a t

/-- Applying `dropWhile` is the identity on a list all of whose elements fail the
predicate. -/
theorem dropWhile_all_false {α : Type} (p : α → Bool) (l : List α)
    (h : ∀ x ∈ l, p x = false) : l.dropWhile p = l := by
  induction l with
  | nil => rfl
  | cons a t ih =>
    rw [List.dropWhile_cons, h a (List.mem_cons_self a t)]
    simp

/-- Unfolding equation for `entTail` on a cons. -/
theorem entTail_cons (c : Call) (rest : List Call) :
    entTail (c :: rest) =
      if (isEntityOp c || (callName c == "attr_set")) = true then entTail rest
      else c :: rest := rfl

/-- Unfolding equation for `entPhase` on a cons. -/
theorem entPhase_cons (c : Call) (rest : List Call) :
    entPhase (c :: rest) =
      if isEntityOp c = true then entTail rest else c :: rest := rfl

/-- Unfolding equation for `delPhase` on a cons. -/
theorem delPhase_cons (d : Call) (r : List Call) :
    delPhase (d :: r) =
      if (callName d == "space_delete") = true then r else d :: r := rfl

/-- Unfolding equation for `srcCheckPhase` on a cons. -/
theorem srcCheckPhase_cons (c : Call) (r : List Call) :
    srcCheckPhase (c :: r) =
      if (callName c == "space_exists") = true then r else c :: r := rfl

/-- Unfolding equation for `ssetListPhase` on a cons. -/
theorem ssetListPhase_cons (c : Call) (r : List Call) :
    ssetListPhase (c :: r) =
      if (callName c == "sset_list") = true then r else c :: r := rfl

/-- Unfolding equation for `midPhase` on four conses. -/
theorem midPhase_cons (cr acl a1 a2 : Call) (r3 : List Call) :
    midPhase (cr :: acl :: a1 :: a2 :: r3) =
      if (callName cr == "space_new" && callName acl == "space_set_acl" &&
          callName a1 == "attr_set" && callName a2 == "attr_set") = true then
        some r3
      else none := rfl

/-- Unfolding equation for `amendedC2Check` on a cons. -/
theorem amendedC2Check_cons (ex : Call) (rest : List Call) :
    amendedC2Check (ex :: rest) =
      ((callName ex == "space_exists") &&
        (match midPhase (delPhase (srcCheckPhase rest)) with
         | none => false
         | some r3 =>
           match entPhase (ssetListPhase
             (r3.dropWhile (fun c => callName c == "config_copy"))) with
           | [sup] => callName sup == "supervise"
           | _ => false)) := rfl

/-- Phase `entTail` skips over a block of entity operations and `attr_set`s. -/
theorem entTail_append (l r : List Call)
    (h : ∀ c ∈ l, (isEntityOp c || (callName c == "attr_set")) = true) :
    entTail (l ++ r) = entTail r := by
  induction l with
  | nil => rfl
  | cons a t ih =>
    show entTail (a :: (t ++ r)) = entTail r
    rw [entTail_cons, h a (List.mem_cons_self a t)]
    simp only [if_true]
    exact ih (fun c hc => h c (List.mem_cons_of_mem a hc))

/-- Phase `entPhase` consumes a block list opening with an entity operation and
stops at the supervise call. -/
theorem entPhase_entity_append (l : List Call) (sup : Call)
    (hl : ∀ c ∈ l, (isEntityOp c || (callName c == "attr_set")) = true)
    (hhead : ∀ c, l.head? = some c → isEntityOp c = true)
    (hsup1 : isEntityOp sup = false)
    (hsup2 : (callName sup == "attr_set") = false) :
    entPhase (l ++ [sup]) = [sup] := by
  cases l with
  | nil =>
    show entPhase (sup :: []) = [sup]
    rw [entPhase_cons, hsup1]
    simp
  | cons x t =>
    show entPhase (x :: (t ++ [sup])) = [sup]
    rw [entPhase_cons, hhead x rfl]
    simp only [if_true]
    rw [entTail_append t [sup] (fun c hc => hl c (List.mem_cons_of_mem x hc))]
    rw [entTail_cons, hsup1, hsup2]
    simp

/-- The order checker accepts every trace of the amended shape: existence
check, optional second existence check, optional delete, create, ACL, two
`attr_set`s, config copies, optional `sset_list`, entity blocks, and a
final supervise. -/
theorem amendedC2Check_shape (ex cr acl a1 a2 : Call)
    (srcOpt delOpt cc slOpt rest : List Call)
    (hex : callName ex = "space_exists")
    (hsrc : srcOpt = [] ∨ ∃ c, srcOpt = [c] ∧ callName c = "space_exists")
    (hdel : delOpt = [] ∨ ∃ c, delOpt = [c] ∧ callName c = "space_delete")
    (hcr : callName cr = "space_new")
    (hacl : callName acl = "space_set_acl")
    (ha1 : callName a1 = "attr_set")
    (ha2 : callName a2 = "attr_set")
    (hcc : ∀ c ∈ cc, (callName c == "config_copy") = true)
    (hsl : slOpt = [] ∨ ∃ c, slOpt = [c] ∧ callName c = "sset_list")
    (hrestconf : ∀ c ∈ rest, (callName c == "config_copy") = false)
    (hrestsl : ∀ c, rest.head? = some c → (callName c == "sset_list") = false)
    (hent : ∃ sup, entPhase rest = [sup] ∧ callName sup = "supervise") :
    amendedC2Check
      (ex :: (srcOpt ++ (delOpt ++ (cr :: acl :: a1 :: a2 ::
        (cc ++ (slOpt ++ rest)))))) = true := by
  obtain ⟨sup, hep, hsn⟩ := hent
  have hmid : midPhase (cr :: acl :: a1 :: a2 :: (cc ++ (slOpt ++ rest))) =
      some (cc ++ (slOpt ++ rest)) := by
    rw [midPhase_cons, hcr, hacl, ha1, ha2]
    rfl
  have hdelp : delPhase (delOpt ++ (cr :: acl :: a1 :: a2 :: (cc ++ (slOpt ++ rest)))) =
      cr :: acl :: a1 :: a2 :: (cc ++ (slOpt ++ rest)) := by
    rcases hdel with rfl | ⟨d, rfl, hdn⟩
    · show delPhase (cr :: _) = _
      rw [delPhase_cons, hcr]
      rfl
    · show delPhase (d :: _) = _
      rw [delPhase_cons, hdn]
      rfl
  have hsrcp : srcCheckPhase (srcOpt ++ (delOpt ++ (cr :: acl :: a1 :: a2 ::
      (cc ++ (slOpt ++ rest))))) =
      delOpt ++ (cr :: acl :: a1 :: a2 :: (cc ++ (slOpt ++ rest))) := by
    rcases hsrc with rfl | ⟨c, rfl, hcn⟩
    · rcases hdel with rfl | ⟨d, rfl, hdn⟩
      · show srcCheckPhase (cr :: _) = _
        rw [srcCheckPhase_cons, hcr]
        rfl
      · show srcCheckPhase (d :: _) = _
        rw [srcCheckPhase_cons, hdn]
        rfl
    · show srcCheckPhase (c :: _) = _
      rw [srcCheckPhase_cons, hcn]
      rfl
  have hdw : (cc ++ (slOpt ++ rest)).dropWhile (fun c => callName c == "config_copy") =
      slOpt ++ rest := by
    rw [List.dropWhile_append_of_pos hcc]
    refine dropWhile_all_false _ _ ?_
    intro c hc
    rcases List.mem_append.mp hc with hc | hc
    · rcases hsl with rfl | ⟨s, rfl, hsn'⟩
      · exact absurd hc (List.not_mem_nil c)
      · simp only [List.mem_singleton] at hc
        subst hc
        rw [hsn']
        rfl
    · exact hrestconf c hc
  have hslp : ssetListPhase (slOpt ++ rest) = rest := by
    rcases hsl with rfl | ⟨s, rfl, hsn'⟩
    · cases hr : rest with
      | nil =>
        rw [hr] at hep
        exact absurd hep (by intro hcontra; exact List.noConfusion hcontra)
      | cons x t =>
        show ssetListPhase (x :: t) = x :: t
        rw [ssetListPhase_cons, hrestsl x (by rw [hr]; rfl)]
        rfl
    · show ssetListPhase (s :: rest) = rest
      rw [ssetListPhase_cons, hsn']
      rfl
  rw [amendedC2Check_cons, hsrcp, hdelp, hmid]
  simp only []
  rw [hdw, hslp, hep]
  simp [hex, hsn]

/-- Filtering a mapped list whose images all fail the predicate. -/
theorem filter_map_eq_nil {α β : Type} (p : β → Bool) (f : α → β) (l : List α)
    (h : ∀ x, p (f x) = false) : (l.map f).filter p = [] := by
  induction l with
  | nil => rfl
  | cons a t ih =>
    rw [List.map_cons, List.filter_cons, h a]
    simpa using ih

/-- Filtering a mapped list whose images all satisfy the predicate. -/
theorem filter_map_eq_self {α β : Type} (p : β → Bool) (f : α → β) (l : List α)
    (h : ∀ x, p (f x) = true) : (l.map f).filter p = l.map f := by
  induction l with
  | nil => rfl
  | cons a t ih =>
    rw [List.map_cons, List.filter_cons, h a]
    simpa using ih

/-- Filtering the sample-set copy loop with a predicate failing on both
call kinds gives nothing. -/
theorem aEntityBlocks_filter_nil (p : Call → Bool) (e : AnalysesEnv)
    (analyses : String) (attrs : List (String × List (String × String)))
    (hcopy : ∀ s, p (aCopyCall e analyses s) = false)
    (hattr : ∀ s pr, p (aAttrCall e analyses s pr) = false) :
    ∀ kept, (aEntityBlocks e analyses attrs kept).filter p = [] := by
  intro kept
  induction kept with
  | nil => rfl
  | cons s rest ih =>
    show ((aCopyCall e analyses s ::
      ((match attrs.lookup s with
        | some pairs => pairs.map (aAttrCall e analyses s)
        | none => []) ++ aEntityBlocks e analyses attrs rest)).filter p) = []
    rw [List.filter_cons, hcopy s]
    simp only [Bool.false_eq_true, if_false, List.filter_append]
    cases hlk : attrs.lookup s with
    | some pairs =>
      rw [filter_map_eq_nil p _ pairs (hattr s), ih]
      rfl
    | none =>
      rw [ih]
      rfl

/-- Filtering the sample-set copy loop for the copies themselves gives one
copy per kept sample set, in order. -/
theorem aEntityBlocks_filter_copy (p : Call → Bool) (e : AnalysesEnv)
    (analyses : String) (attrs : List (String × List (String × String)))
    (hcopy : ∀ s, p (aCopyCall e analyses s) = true)
    (hattr : ∀ s pr, p (aAttrCall e analyses s pr) = false) :
    ∀ kept, (aEntityBlocks e analyses attrs kept).filter p =
      kept.map (aCopyCall e analyses) := by
  intro kept
  induction kept with
  | nil => rfl
  | cons s rest ih =>
    show ((aCopyCall e analyses s ::
      ((match attrs.lookup s with
        | some pairs => pairs.map (aAttrCall e analyses s)
        | none => []) ++ aEntityBlocks e analyses attrs rest)).filter p) = _
    rw [List.filter_cons, hcopy s]
    simp only [if_true, List.filter_append, List.map_cons]
    cases hlk : attrs.lookup s with
    | some pairs =>
      rw [filter_map_eq_nil p _ pairs (hattr s), ih]
      rfl
    | none =>
      rw [ih]
      rfl

/-- The copy loop opens with an `entity_copy` when it is non-empty. -/
theorem aEntityBlocks_head (e : AnalysesEnv) (analyses : String)
    (attrs : List (String × List (String × String))) (kept : List String) :
    ∀ c, (aEntityBlocks e analyses attrs kept).head? = some c →
      isEntityOp c = true := by
  intro c hc
  cases kept with
  | nil => exact Option.noConfusion hc
  | cons s rest =>
    have : aCopyCall e analyses s = c := Option.some.inj hc
    subst this
    rfl

/-- The amended call order for a completing `stddata_new` run: the checker
accepts the trace, the two workspace attributes are `data_version` then
`package`, the `config_copy` calls are exactly one per workflow config in
file order, and the `entity_import` calls are exactly the participant,
sample and sample-set loadfiles, in that order. -/
theorem C2_stddata_order (e : StddataEnv)
    (hc : (stddata_main e).2 = .completed) :
    amendedC2Check (stddata_main e).1 = true ∧
    wsAttrCalls (stddata_main e).1 =
      [["-y", "attr_set", "-p", e.toproject, "-w", "stddata__" ++ e.datestamp,
        "-a", "data_version", "-v", e.datestamp],
       ["-y", "attr_set", "-p", e.toproject, "-w", "stddata__" ++ e.datestamp,
        "-a", "package", "-v", "true"]] ∧
    callsNamed "config_copy" (stddata_main e).1 =
      (get_configs e.workflowLines).map (sConfigCall e) ∧
    callsNamed "entity_import" (stddata_main e).1 =
      e.participantFiles.map (sImportCall e) ++ e.sampleFiles.map (sImportCall e) ++
        e.ssetFiles.map (sImportCall e) := by
  by_cases h1 : e.loadfilesIsDir = true
  · by_cases h2 : (e.spaceExists && !e.askDelete) = true
    · exfalso
      have hrun : stddata_main e =
          ([["space_exists", "-p", e.toproject, "-w", "stddata__" ++ e.datestamp]],
           .exited 0) := by
        unfold stddata_main
        rw [h1, h2]
        rfl
      rw [hrun] at hc
      exact Outcome.noConfusion hc
    · have hrun : stddata_main e = (stddataPre e ++ [sSuperviseCall e], .completed) := by
        unfold stddata_main
        rw [h1, Bool.eq_false_iff.mpr h2]
        rfl
      rw [hrun]
      have hdelW : List.filter isWsAttrPred
          (if e.spaceExists = true then
            [["-y", "space_delete", "-p", e.toproject, "-w", "stddata__" ++ e.datestamp]]
           else []) = [] := by
        by_cases hse : e.spaceExists = true
        · rw [if_pos hse]
          rfl
        · rw [if_neg hse]
          rfl
      have hdelC : List.filter (fun c => callName c == "config_copy")
          (if e.spaceExists = true then
            [["-y", "space_delete", "-p", e.toproject, "-w", "stddata__" ++ e.datestamp]]
           else []) = [] := by
        by_cases hse : e.spaceExists = true
        · rw [if_pos hse]
          rfl
        · rw [if_neg hse]
          rfl
      have hdelI : List.filter (fun c => callName c == "entity_import")
          (if e.spaceExists = true then
            [["-y", "space_delete", "-p", e.toproject, "-w", "stddata__" ++ e.datestamp]]
           else []) = [] := by
        by_cases hse : e.spaceExists = true
        · rw [if_pos hse]
          rfl
        · rw [if_neg hse]
          rfl
      refine ⟨?_, ?_, ?_, ?_⟩
      · have hshape : stddataPre e ++ [sSuperviseCall e] =
            ["space_exists", "-p", e.toproject, "-w", "stddata__" ++ e.datestamp] ::
              ([] ++
                ((if e.spaceExists = true then
                    [["-y", "space_delete", "-p", e.toproject, "-w",
                      "stddata__" ++ e.datestamp]]
                  else []) ++
                 (["space_new", "-p", e.toproject, "-w", "stddata__" ++ e.datestamp] ::
                  ["space_set_acl", "-p", e.toproject, "-w", "stddata__" ++ e.datestamp,
                   "-r", "OWNER", "--users", "GROUP_broadgdac@firecloud.org"] ::
                  ["-y", "attr_set", "-p", e.toproject, "-w", "stddata__" ++ e.datestamp,
                   "-a", "data_version", "-v", e.datestamp] ::
                  ["-y", "attr_set", "-p", e.toproject, "-w", "stddata__" ++ e.datestamp,
                   "-a", "package", "-v", "true"] ::
                  ((get_configs e.workflowLines).map (sConfigCall e) ++
                   ([] ++
                    ((e.participantFiles.map (sImportCall e) ++
                      (e.sampleFiles.map (sImportCall e) ++
                       e.ssetFiles.map (sImportCall e))) ++
                     [sSuperviseCall e])))))) := by
          unfold stddataPre
          simp [List.append_assoc]
        rw [hshape]
        refine amendedC2Check_shape _ _ _ _ _ _ _ _ _ _ rfl (Or.inl rfl) ?_ rfl rfl rfl rfl
          ?_ (Or.inl rfl) ?_ ?_ ?_
        · by_cases hse : e.spaceExists = true
          · exact Or.inr ⟨["-y", "space_delete", "-p", e.toproject, "-w",
              "stddata__" ++ e.datestamp], by rw [if_pos hse], rfl⟩
          · exact Or.inl (by rw [if_neg hse])
        · intro c hcm
          obtain ⟨x, _, rfl⟩ := List.mem_map.mp hcm
          rfl
        · intro c hcm
          rcases List.mem_append.mp hcm with hm | hm
          · rcases List.mem_append.mp hm with hm | hm
            · obtain ⟨x, _, rfl⟩ := List.mem_map.mp hm
              rfl
            · rcases List.mem_append.mp hm with hm | hm
              · obtain ⟨x, _, rfl⟩ := List.mem_map.mp hm
                rfl
              · obtain ⟨x, _, rfl⟩ := List.mem_map.mp hm
                rfl
          · simp only [List.mem_singleton] at hm
            subst hm
            rfl
        · intro c hh
          have hm0 := mem_of_head?_eq hh
          rcases List.mem_append.mp hm0 with hm | hm
          · rcases List.mem_append.mp hm with hm | hm
            · obtain ⟨x, _, rfl⟩ := List.mem_map.mp hm
              rfl
            · rcases List.mem_append.mp hm with hm | hm
              · obtain ⟨x, _, rfl⟩ := List.mem_map.mp hm
                rfl
              · obtain ⟨x, _, rfl⟩ := List.mem_map.mp hm
                rfl
          · simp only [List.mem_singleton] at hm
            subst hm
            rfl
        · refine ⟨sSuperviseCall e, ?_, rfl⟩
          refine entPhase_entity_append _ _ ?_ ?_ rfl rfl
          · intro c hcm
            rcases List.mem_append.mp hcm with hm | hm
            · obtain ⟨x, _, rfl⟩ := List.mem_map.mp hm
              rfl
            · rcases List.mem_append.mp hm with hm | hm
              · obtain ⟨x, _, rfl⟩ := List.mem_map.mp hm
                rfl
              · obtain ⟨x, _, rfl⟩ := List.mem_map.mp hm
                rfl
          · intro c hh
            have hm0 := mem_of_head?_eq hh
            rcases List.mem_append.mp hm0 with hm | hm
            · obtain ⟨x, _, rfl⟩ := List.mem_map.mp hm
              rfl
            · rcases List.mem_append.mp hm with hm | hm
              · obtain ⟨x, _, rfl⟩ := List.mem_map.mp hm
                rfl
              · obtain ⟨x, _, rfl⟩ := List.mem_map.mp hm
                rfl
      · unfold wsAttrCalls stddataPre
        simp only [List.filter_append]
        rw [hdelW,
          filter_map_eq_nil isWsAttrPred (sConfigCall e) (get_configs e.workflowLines)
            (fun x => rfl),
          filter_map_eq_nil isWsAttrPred (sImportCall e) e.participantFiles (fun x => rfl),
          filter_map_eq_nil isWsAttrPred (sImportCall e) e.sampleFiles (fun x => rfl),
          filter_map_eq_nil isWsAttrPred (sImportCall e) e.ssetFiles (fun x => rfl)]
        rw [show List.filter isWsAttrPred
            [["space_exists", "-p", e.toproject, "-w", "stddata__" ++ e.datestamp]] =
            [] from rfl]
        rw [show List.filter isWsAttrPred
            [["space_new", "-p", e.toproject, "-w", "stddata__" ++ e.datestamp],
            ["space_set_acl", "-p", e.toproject, "-w", "stddata__" ++ e.datestamp,
             "-r", "OWNER", "--users", "GROUP_broadgdac@firecloud.org"],
            ["-y", "attr_set", "-p", e.toproject, "-w", "stddata__" ++ e.datestamp,
             "-a", "data_version", "-v", e.datestamp],
            ["-y", "attr_set", "-p", e.toproject, "-w", "stddata__" ++ e.datestamp,
             "-a", "package", "-v", "true"]] =
            [["-y", "attr_set", "-p", e.toproject, "-w", "stddata__" ++ e.datestamp,
              "-a", "data_version", "-v", e.datestamp],
             ["-y", "attr_set", "-p", e.toproject, "-w", "stddata__" ++ e.datestamp,
              "-a", "package", "-v", "true"]] from rfl]
        rw [show List.filter isWsAttrPred [sSuperviseCall e] = ([] : List Call) from rfl]
        simp
      · unfold callsNamed stddataPre
        simp only [List.filter_append]
        rw [hdelC,
          filter_map_eq_self (fun c => callName c == "config_copy") (sConfigCall e)
            (get_configs e.workflowLines) (fun x => rfl),
          filter_map_eq_nil (fun c => callName c == "config_copy") (sImportCall e)
            e.participantFiles (fun x => rfl),
          filter_map_eq_nil (fun c => callName c == "config_copy") (sImportCall e)
            e.sampleFiles (fun x => rfl),
          filter_map_eq_nil (fun c => callName c == "config_copy") (sImportCall e)
            e.ssetFiles (fun x => rfl)]
        rw [show List.filter (fun c => callName c == "config_copy")
            [["space_exists", "-p", e.toproject, "-w", "stddata__" ++ e.datestamp]] =
            [] from rfl]
        rw [show List.filter (fun c => callName c == "config_copy")
            [["space_new", "-p", e.toproject, "-w", "stddata__" ++ e.datestamp],
            ["space_set_acl", "-p", e.toproject, "-w", "stddata__" ++ e.datestamp,
             "-r", "OWNER", "--users", "GROUP_broadgdac@firecloud.org"],
            ["-y", "attr_set", "-p", e.toproject, "-w", "stddata__" ++ e.datestamp,
             "-a", "data_version", "-v", e.datestamp],
            ["-y", "attr_set", "-p", e.toproject, "-w", "stddata__" ++ e.datestamp,
             "-a", "package", "-v", "true"]] = [] from rfl]
        rw [show List.filter (fun c => callName c == "config_copy") [sSuperviseCall e] =
            ([] : List Call) from rfl]
        simp
      · unfold callsNamed stddataPre
        simp only [List.filter_append]
        rw [hdelI,
          filter_map_eq_nil (fun c => callName c == "entity_import") (sConfigCall e)
            (get_configs e.workflowLines) (fun x => rfl),
          filter_map_eq_self (fun c => callName c == "entity_import") (sImportCall e)
            e.participantFiles (fun x => rfl),
          filter_map_eq_self (fun c => callName c == "entity_import") (sImportCall e)
            e.sampleFiles (fun x => rfl),
          filter_map_eq_self (fun c => callName c == "entity_import") (sImportCall e)
            e.ssetFiles (fun x => rfl)]
        rw [show List.filter (fun c => callName c == "entity_import")
            [["space_exists", "-p", e.toproject, "-w", "stddata__" ++ e.datestamp]] =
            [] from rfl]
        rw [show List.filter (fun c => callName c == "entity_import")
            [["space_new", "-p", e.toproject, "-w", "stddata__" ++ e.datestamp],
            ["space_set_acl", "-p", e.toproject, "-w", "stddata__" ++ e.datestamp,
             "-r", "OWNER", "--users", "GROUP_broadgdac@firecloud.org"],
            ["-y", "attr_set", "-p", e.toproject, "-w", "stddata__" ++ e.datestamp,
             "-a", "data_version", "-v", e.datestamp],
            ["-y", "attr_set", "-p", e.toproject, "-w", "stddata__" ++ e.datestamp,
             "-a", "package", "-v", "true"]] = [] from rfl]
        rw [show List.filter (fun c => callName c == "entity_import") [sSuperviseCall e] =
            ([] : List Call) from rfl]
        simp
  · exfalso
    have hrun : stddata_main e = ([], .exited 1) := by
      unfold stddata_main
      rw [Bool.eq_false_iff.mpr h1]
      rfl
    rw [hrun] at hc
    exact Outcome.noConfusion hc

/-- The amended call order for a completing run of `analysesBody`. -/
theorem C2_analysesBody_order (e : AnalysesEnv) (N : String)
    (hc : (analysesBody e N).2 = .completed) :
    amendedC2Check (analysesBody e N).1 = true ∧
    wsAttrCalls (analysesBody e N).1 =
      [["attr_set", "-p", e.toproject, "-w", N, "-a", "data_version", "-v", e.datestamp],
       ["attr_set", "-p", e.toproject, "-w", N, "-a", "package", "-v", "true"]] ∧
    callsNamed "config_copy" (analysesBody e N).1 =
      (get_configs e.workflowLines).map (aConfigCall e N) ∧
    callsNamed "entity_copy" (analysesBody e N).1 =
      (ssetStream e.serverSsets e.user_ssets).1.map (aCopyCall e N) := by
  by_cases h1 : e.stddataExists = true
  · by_cases h2 : (e.targetExists && !e.askDelete) = true
    · exfalso
      have hrun : (analysesBody e N).2 = .exited 0 := by
        unfold analysesBody
        rw [h1, h2]
        rfl
      rw [hrun] at hc
      exact Outcome.noConfusion hc
    · by_cases h3 : (ssetStream e.serverSsets e.user_ssets).2 = true
      · have hrun : analysesBody e N =
            (analysesPre e N ++ [aSuperviseCall e N], .completed) := by
          unfold analysesBody
          rw [h1, Bool.eq_false_iff.mpr h2, h3]
          rfl
        rw [hrun]
        have hblocksn := aEntityBlocks_names e N (load_attributes e.attrLines)
          (ssetStream e.serverSsets e.user_ssets).1
        have hdelW : List.filter isWsAttrPred
            (if e.targetExists = true then
              [["space_delete", "-p", e.toproject, "-w", N]] else []) = [] := by
          by_cases hse : e.targetExists = true
          · rw [if_pos hse]
            rfl
          · rw [if_neg hse]
            rfl
        have hdelC : List.filter (fun c => callName c == "config_copy")
            (if e.targetExists = true then
              [["space_delete", "-p", e.toproject, "-w", N]] else []) = [] := by
          by_cases hse : e.targetExists = true
          · rw [if_pos hse]
            rfl
          · rw [if_neg hse]
            rfl
        have hdelE : List.filter (fun c => callName c == "entity_copy")
            (if e.targetExists = true then
              [["space_delete", "-p", e.toproject, "-w", N]] else []) = [] := by
          by_cases hse : e.targetExists = true
          · rw [if_pos hse]
            rfl
          · rw [if_neg hse]
            rfl
        refine ⟨?_, ?_, ?_, ?_⟩
        · have hshape : analysesPre e N ++ [aSuperviseCall e N] =
              ["space_exists", "-p", e.fromproject, "-w", "stddata__" ++ e.datestamp] ::
                ([["space_exists", "-p", e.toproject, "-w", N]] ++
                  ((if e.targetExists = true then
                      [["space_delete", "-p", e.toproject, "-w", N]] else []) ++
                   (["space_new", "-p", e.toproject, "-w", N] ::
                    ["space_set_acl", "-p", e.toproject, "-w", N,
                     "-r", "OWNER", "--users", "GROUP_broadgdac@firecloud.org"] ::
                    ["attr_set", "-p", e.toproject, "-w", N,
                     "-a", "data_version", "-v", e.datestamp] ::
                    ["attr_set", "-p", e.toproject, "-w", N, "-a", "package", "-v", "true"] ::
                    ((get_configs e.workflowLines).map (aConfigCall e N) ++
                     ([["sset_list", "-p", e.fromproject, "-w", "stddata__" ++ e.datestamp]] ++
                      (aEntityBlocks e N (load_attributes e.attrLines)
                          (ssetStream e.serverSsets e.user_ssets).1 ++
                        [aSuperviseCall e N])))))) := by
            unfold analysesPre
            simp [List.append_assoc]
          rw [hshape]
          refine amendedC2Check_shape _ _ _ _ _ _ _ _ _ _ rfl
            (Or.inr ⟨["space_exists", "-p", e.toproject, "-w", N], rfl, rfl⟩) ?_
            rfl rfl rfl rfl ?_
            (Or.inr ⟨["sset_list", "-p", e.fromproject, "-w",
              "stddata__" ++ e.datestamp], rfl, rfl⟩) ?_ ?_ ?_
          · by_cases hse : e.targetExists = true
            · exact Or.inr ⟨["space_delete", "-p", e.toproject, "-w", N],
                by rw [if_pos hse], rfl⟩
            · exact Or.inl (by rw [if_neg hse])
          · intro c hcm
            obtain ⟨x, _, rfl⟩ := List.mem_map.mp hcm
            rfl
          · intro c hcm
            rcases List.mem_append.mp hcm with hm | hm
            · rcases hblocksn c hm with hn | hn
              · rw [hn]
                rfl
              · rw [hn]
                rfl
            · simp only [List.mem_singleton] at hm
              subst hm
              rfl
          · intro c hh
            have hm0 := mem_of_head?_eq hh
            rcases List.mem_append.mp hm0 with hm | hm
            · rcases hblocksn c hm with hn | hn
              · rw [hn]
                rfl
              · rw [hn]
                rfl
            · simp only [List.mem_singleton] at hm
              subst hm
              rfl
          · refine ⟨aSuperviseCall e N, ?_, rfl⟩
            refine entPhase_entity_append _ _ ?_
              (aEntityBlocks_head e N (load_attributes e.attrLines)
                (ssetStream e.serverSsets e.user_ssets).1) rfl rfl
            intro c hcm
            rcases hblocksn c hcm with hn | hn
            · show ((callName c == "entity_import" || callName c == "entity_copy") ||
                (callName c == "attr_set")) = true
              rw [hn]
              rfl
            · show ((callName c == "entity_import" || callName c == "entity_copy") ||
                (callName c == "attr_set")) = true
              rw [hn]
              rfl
        · unfold wsAttrCalls analysesPre
          simp only [List.filter_append]
          rw [hdelW,
            filter_map_eq_nil isWsAttrPred (aConfigCall e N) (get_configs e.workflowLines)
              (fun x => rfl),
            aEntityBlocks_filter_nil isWsAttrPred e N (load_attributes e.attrLines)
              (fun s => rfl) (fun s pr => rfl)]
          rw [show List.filter isWsAttrPred
              [["space_exists", "-p", e.fromproject, "-w", "stddata__" ++ e.datestamp],
               ["space_exists", "-p", e.toproject, "-w", N]] = [] from rfl]
          rw [show List.filter isWsAttrPred
              [["space_new", "-p", e.toproject, "-w", N],
               ["space_set_acl", "-p", e.toproject, "-w", N,
                "-r", "OWNER", "--users", "GROUP_broadgdac@firecloud.org"],
               ["attr_set", "-p", e.toproject, "-w", N,
                "-a", "data_version", "-v", e.datestamp],
               ["attr_set", "-p", e.toproject, "-w", N, "-a", "package", "-v", "true"]] =
              [["attr_set", "-p", e.toproject, "-w", N,
                "-a", "data_version", "-v", e.datestamp],
               ["attr_set", "-p", e.toproject, "-w", N, "-a", "package", "-v", "true"]]
              from rfl]
          rw [show List.filter isWsAttrPred
              [["sset_list", "-p", e.fromproject, "-w", "stddata__" ++ e.datestamp]] =
              [] from rfl]
          rw [show List.filter isWsAttrPred [aSuperviseCall e N] = ([] : List Call)
              from rfl]
          simp
        · unfold callsNamed analysesPre
          simp only [List.filter_append]
          rw [hdelC,
            filter_map_eq_self (fun c => callName c == "config_copy") (aConfigCall e N)
              (get_configs e.workflowLines) (fun x => rfl),
            aEntityBlocks_filter_nil (fun c => callName c == "config_copy") e N
              (load_attributes e.attrLines) (fun s => rfl) (fun s pr => rfl)]
          rw [show List.filter (fun c => callName c == "config_copy")
              [["space_exists", "-p", e.fromproject, "-w", "stddata__" ++ e.datestamp],
               ["space_exists", "-p", e.toproject, "-w", N]] = [] from rfl]
          rw [show List.filter (fun c => callName c == "config_copy")
              [["space_new", "-p", e.toproject, "-w", N],
               ["space_set_acl", "-p", e.toproject, "-w", N,
                "-r", "OWNER", "--users", "GROUP_broadgdac@firecloud.org"],
               ["attr_set", "-p", e.toproject, "-w", N,
                "-a", "data_version", "-v", e.datestamp],
               ["attr_set", "-p", e.toproject, "-w", N, "-a", "package", "-v", "true"]] =
              [] from rfl]
          rw [show List.filter (fun c => callName c == "config_copy")
              [["sset_list", "-p", e.fromproject, "-w", "stddata__" ++ e.datestamp]] =
              [] from rfl]
          rw [show List.filter (fun c => callName c == "config_copy")
              [aSuperviseCall e N] = ([] : List Call) from rfl]
          simp
        · unfold callsNamed analysesPre
          simp only [List.filter_append]
          rw [hdelE,
            filter_map_eq_nil (fun c => callName c == "entity_copy") (aConfigCall e N)
              (get_configs e.workflowLines) (fun x => rfl),
            aEntityBlocks_filter_copy (fun c => callName c == "entity_copy") e N
              (load_attributes e.attrLines) (fun s => rfl) (fun s pr => rfl)]
          rw [show List.filter (fun c => callName c == "entity_copy")
              [["space_exists", "-p", e.fromproject, "-w", "stddata__" ++ e.datestamp],
               ["space_exists", "-p", e.toproject, "-w", N]] = [] from rfl]
          rw [show List.filter (fun c => callName c == "entity_copy")
              [["space_new", "-p", e.toproject, "-w", N],
               ["space_set_acl", "-p", e.toproject, "-w", N,
                "-r", "OWNER", "--users", "GROUP_broadgdac@firecloud.org"],
               ["attr_set", "-p", e.toproject, "-w", N,
                "-a", "data_version", "-v", e.datestamp],
               ["attr_set", "-p", e.toproject, "-w", N, "-a", "package", "-v", "true"]] =
              [] from rfl]
          rw [show List.filter (fun c => callName c == "entity_copy")
              [["sset_list", "-p", e.fromproject, "-w", "stddata__" ++ e.datestamp]] =
              [] from rfl]
          rw [show List.filter (fun c => callName c == "entity_copy")
              [aSuperviseCall e N] = ([] : List Call) from rfl]
          simp
      · exfalso
        have hrun : (analysesBody e N).2 = .pyError "IndexError: list index out of range" := by
          unfold analysesBody
          rw [h1, Bool.eq_false_iff.mpr h2, Bool.eq_false_iff.mpr h3]
          rfl
        rw [hrun] at hc
        exact Outcome.noConfusion hc
  · exfalso
    have hrun : (analysesBody e N).2 = .exited 1 := by
      unfold analysesBody
      rw [Bool.eq_false_iff.mpr h1]
      rfl
    rw [hrun] at hc
    exact Outcome.noConfusion hc

/-- C2 counterexample: a completing `analyses_new` run whose trace violates
the order exactly as the claim lists it (one existence check, optional
delete, create, ACL, attributes, config copies, entity copies, supervise):
the code issues a second leading existence check for the source stddata
workspace, a `sset_list` call, and per-sample-set `attr_set` calls after
the copies, so the claimed-order scanner rejects the trace. -/
theorem C2_counterexample :
    (analyses_main envAna).2 = Outcome.completed ∧
    claimC2Check (analyses_main envAna).1 = false := by
  exact ⟨rfl, by decide⟩

/-- C2 (amended): for every completing run of stddata_new or analyses_new,
the remote calls occur in this order — workspace existence check (preceded,
for analyses_new, by an existence check of the source stddata workspace),
optional workspace delete, workspace create, ACL setting, attribute setting
(`data_version` then `package`), one `config_copy` per workflow config in
file order, then (for analyses_new) one `sset_list` call, the entity phase
(participant, sample and sample-set imports in that order for stddata_new;
one `entity_copy` per kept sample set for analyses_new, each immediately
followed by its per-entity `attr_set` calls), and finally `supervise`. -/
theorem C2_amended_order :
    (∀ e : StddataEnv, (stddata_main e).2 = .completed →
      amendedC2Check (stddata_main e).1 = true ∧
      wsAttrCalls (stddata_main e).1 =
        [["-y", "attr_set", "-p", e.toproject, "-w", "stddata__" ++ e.datestamp,
          "-a", "data_version", "-v", e.datestamp],
         ["-y", "attr_set", "-p", e.toproject, "-w", "stddata__" ++ e.datestamp,
          "-a", "package", "-v", "true"]] ∧
      callsNamed "config_copy" (stddata_main e).1 =
        (get_configs e.workflowLines).map (sConfigCall e) ∧
      callsNamed "entity_import" (stddata_main e).1 =
        e.participantFiles.map (sImportCall e) ++ e.sampleFiles.map (sImportCall e) ++
          e.ssetFiles.map (sImportCall e)) ∧
    (∀ e : AnalysesEnv, (analyses_main e).2 = .completed →
      amendedC2Check (analyses_main e).1 = true ∧
      ∃ N, wsAttrCalls (analyses_main e).1 =
          [["attr_set", "-p", e.toproject, "-w", N,
            "-a", "data_version", "-v", e.datestamp],
           ["attr_set", "-p", e.toproject, "-w", N, "-a", "package", "-v", "true"]] ∧
        callsNamed "config_copy" (analyses_main e).1 =
          (get_configs e.workflowLines).map (aConfigCall e N) ∧
        callsNamed "entity_copy" (analyses_main e).1 =
          (ssetStream e.serverSsets e.user_ssets).1.map (aCopyCall e N)) := by
  constructor
  · intro e hc
    exact C2_stddata_order e hc
  · intro e hc
    match hu : e.user_ssets with
    | some (s :: rest) =>
      exfalso
      have hrun : (analyses_main e).2 =
          .pyError "TypeError: object of type int and list cannot be compared or measured by len" := by
        unfold analyses_main
        rw [hu]
      rw [hrun] at hc
      exact Outcome.noConfusion hc
    | some [] =>
      have hmain : analyses_main e = analysesBody e ("awg_" ++ "" ++ "__" ++ e.datestamp) := by
        unfold analyses_main
        rw [hu]
      rw [hmain] at hc ⊢
      obtain ⟨hcheck, hws, hcf, hec⟩ := C2_analysesBody_order e _ hc
      rw [hu] at hec
      exact ⟨hcheck, _, hws, hcf, hec⟩
    | none =>
      have hmain : analyses_main e = analysesBody e ("analyses" ++ "__" ++ e.datestamp) := by
        unfold analyses_main
        rw [hu]
      rw [hmain] at hc ⊢
      obtain ⟨hcheck, hws, hcf, hec⟩ := C2_analysesBody_order e _ hc
      rw [hu] at hec
      exact ⟨hcheck, _, hws, hcf, hec⟩

/-- C2 witness: the amended theorem at a concrete completing stddata run. -/
theorem C2_witness : amendedC2Check (stddata_main envStd).1 = true :=
  (C2_amended_order.1 envStd rfl).1

/-- Association-list lookup at a matching head. -/
theorem lookup_cons_self {α : Type} (k : String) (v : α) (t : List (String × α)) :
    List.lookup k ((k, v) :: t) = some v := by
  rw [List.lookup_cons, beq_self_eq_true]

/-- Association-list lookup skips a non-matching head. -/
theorem lookup_cons_ne {α : Type} (k a : String) (v : α) (t : List (String × α))
    (h : ¬ k = a) :
    List.lookup k ((a, v) :: t) = List.lookup k t := by
  rw [List.lookup_cons, beq_eq_false_iff_ne.mpr h]

/-- Looking up the replaced key after an in-place dictionary update. -/
theorem lookup_map_replace {α : Type} (l : List (String × α)) (k : String) (v : α)
    (h : ∃ p ∈ l, p.1 = k) :
    (l.map (fun p => if p.1 = k then (k, v) else p)).lookup k = some v := by
  induction l with
  | nil =>
    obtain ⟨p, hp, _⟩ := h
    exact absurd hp (List.not_mem_nil p)
  | cons q t ih =>
    by_cases hq : q.1 = k
    · simp only [List.map_cons, if_pos hq]
      exact lookup_cons_self k v _
    · simp only [List.map_cons, if_neg hq]
      obtain ⟨a, b⟩ := q
      simp only at hq
      rw [lookup_cons_ne k a b _ (fun hc => hq hc.symm)]
      refine ih ?_
      obtain ⟨p, hp, hpk⟩ := h
      rcases List.mem_cons.mp hp with rfl | hp
      · exact absurd hpk hq
      · exact ⟨p, hp, hpk⟩

/-- Looking up a freshly appended key absent from the prefix. -/
theorem lookup_append_single_self {α : Type} (l : List (String × α)) (k : String) (v : α)
    (h : ∀ p ∈ l, p.1 ≠ k) :
    (l ++ [(k, v)]).lookup k = some v := by
  induction l with
  | nil => exact lookup_cons_self k v []
  | cons q t ih =>
    obtain ⟨a, b⟩ := q
    show List.lookup k ((a, b) :: (t ++ [(k, v)])) = some v
    rw [lookup_cons_ne k a b _ (fun hc =>
      h (a, b) (List.mem_cons_self (a, b) t) hc.symm)]
    exact ih (fun p hp => h p (List.mem_cons_of_mem (a, b) hp))

/-- Looking up the just-inserted key of a Python dictionary update. -/
theorem lookup_dictInsert_self {α : Type} (l : List (String × α)) (k : String) (v : α) :
    (dictInsert l k v).lookup k = some v := by
  unfold dictInsert
  by_cases h : (l.any fun p => p.1 = k) = true
  · rw [if_pos h]
    refine lookup_map_replace l k v ?_
    obtain ⟨p, hp, hpk⟩ := List.any_eq_true.mp h
    exact ⟨p, hp, of_decide_eq_true hpk⟩
  · rw [if_neg h]
    refine lookup_append_single_self l k v ?_
    intro p hp hcontra
    exact h (List.any_eq_true.mpr ⟨p, hp, decide_eq_true hcontra⟩)

/-- A dictionary update leaves the other keys unchanged. -/
theorem lookup_dictInsert_ne {α : Type} (l : List (String × α)) (k : String) (v : α)
    (k' : String) (hne : k' ≠ k) :
    (dictInsert l k v).lookup k' = l.lookup k' := by
  unfold dictInsert
  by_cases h : (l.any fun p => p.1 = k) = true
  · rw [if_pos h]
    clear h
    induction l with
    | nil => rfl
    | cons q t ih =>
      obtain ⟨a, b⟩ := q
      by_cases hq : (a, b).1 = k
      · simp only [List.map_cons, if_pos hq]
        simp only at hq
        subst hq
        rw [lookup_cons_ne k' a v _ hne, lookup_cons_ne k' a b _ hne]
        exact ih
      · simp only [List.map_cons, if_neg hq]
        by_cases hq' : k' = a
        · subst hq'
          rw [lookup_cons_self, lookup_cons_self]
        · rw [lookup_cons_ne k' a b _ hq', lookup_cons_ne k' a b _ hq']
          exact ih
  · rw [if_neg h]
    induction l with
    | nil =>
      show List.lookup k' ((k, v) :: []) = List.lookup k' []
      rw [lookup_cons_ne k' k v _ hne]
    | cons q t ih =>
      obtain ⟨a, b⟩ := q
      show List.lookup k' ((a, b) :: (t ++ [(k, v)])) = _
      by_cases hq' : k' = a
      · subst hq'
        rw [lookup_cons_self, lookup_cons_self]
      · rw [lookup_cons_ne k' a b _ hq', lookup_cons_ne k' a b _ hq']
        exact ih (by
          intro hcontra
          exact h (by
            rw [List.any_cons]
            exact Bool.or_eq_true_iff.mpr (Or.inr hcontra)))

/-- Rows whose keys differ from `k` leave the accumulated lookup at `k`
unchanged. -/
theorem loadAttrRows_lookup_notin (fieldnames : List String) :
    ∀ (rows : List String) (acc : List (String × List (String × String)))
      (k : String),
      (∀ line ∈ rows, (pySplit '\t' line).headD "" ≠ k) →
      (loadAttrRows fieldnames acc rows).lookup k = acc.lookup k := by
  intro rows
  induction rows with
  | nil =>
    intro acc k _
    rfl
  | cons r t ih =>
    intro acc k h
    show (loadAttrRows fieldnames
      (dictInsert acc ((pySplit '\t' r).headD "") (rowDict fieldnames (pySplit '\t' r)))
      t).lookup k = acc.lookup k
    rw [ih _ k (fun l hl => h l (List.mem_cons_of_mem r hl))]
    exact lookup_dictInsert_ne acc _ _ k
      (fun hc => h r (List.mem_cons_self r t) hc.symm)

/-- With pairwise-distinct first fields, the dictionary built by the row
loop maps each row's first field to that row's dictionary. -/
theorem loadAttrRows_lookup_found (fieldnames : List String) :
    ∀ (rows : List String) (acc : List (String × List (String × String)))
      (line : String),
      line ∈ rows →
      (rows.map (fun l => (pySplit '\t' l).headD "")).Nodup →
      (loadAttrRows fieldnames acc rows).lookup ((pySplit '\t' line).headD "") =
        some (rowDict fieldnames (pySplit '\t' line)) := by
  intro rows
  induction rows with
  | nil =>
    intro acc line h
    exact absurd h (List.not_mem_nil line)
  | cons r t ih =>
    intro acc line hl hnd
    rcases List.mem_cons.mp hl with rfl | hlt
    · show (loadAttrRows fieldnames
        (dictInsert acc ((pySplit '\t' line).headD "")
          (rowDict fieldnames (pySplit '\t' line))) t).lookup
        ((pySplit '\t' line).headD "") = _
      rw [loadAttrRows_lookup_notin fieldnames t _ _ ?_]
      · exact lookup_dictInsert_self acc _ _
      · intro l2 hl2 hcontra
        rw [List.map_cons, List.nodup_cons] at hnd
        exact hnd.1 (hcontra ▸ List.mem_map_of_mem _ hl2)
    · show (loadAttrRows fieldnames
        (dictInsert acc ((pySplit '\t' r).headD "")
          (rowDict fieldnames (pySplit '\t' r))) t).lookup
        ((pySplit '\t' line).headD "") = _
      refine ih _ line hlt ?_
      rw [List.map_cons, List.nodup_cons] at hnd
      exact hnd.2

/-- Filtering the copy loop for entity-level `attr_set`s leaves exactly the
per-entity attribute calls. -/
theorem aEntityBlocks_filter_attr (e : AnalysesEnv) (analyses : String)
    (attrs : List (String × List (String × String))) :
    ∀ kept, (aEntityBlocks e analyses attrs kept).filter isEntityAttr =
      entityAttrCalls e analyses attrs kept := by
  intro kept
  induction kept with
  | nil => rfl
  | cons s rest ih =>
    show ((aCopyCall e analyses s ::
      ((match attrs.lookup s with
        | some pairs => pairs.map (aAttrCall e analyses s)
        | none => []) ++ aEntityBlocks e analyses attrs rest)).filter isEntityAttr) = _
    rw [List.filter_cons]
    rw [show isEntityAttr (aCopyCall e analyses s) = false from rfl]
    simp only [Bool.false_eq_true, if_false, List.filter_append]
    show _ = (match attrs.lookup s with
      | some pairs => pairs.map (aAttrCall e analyses s)
      | none => []) ++ entityAttrCalls e analyses attrs rest
    cases hlk : attrs.lookup s with
    | some pairs =>
      rw [filter_map_eq_self isEntityAttr (aAttrCall e analyses s) pairs
        (fun pr => rfl), ih]
    | none =>
      rw [ih]
      rfl

/-- Call `aAttrCall` determines its sample set and its attribute pair. -/
theorem aAttrCall_inj (e : AnalysesEnv) (analyses : String)
    {s s' : String} {pr pr' : String × String}
    (h : aAttrCall e analyses s pr = aAttrCall e analyses s' pr') :
    s = s' ∧ pr = pr' := by
  unfold aAttrCall at h
  simp only [List.cons.injEq, and_true, true_and, eq_self_iff_true] at h
  obtain ⟨hs, ha, hv⟩ := h
  exact ⟨hs, Prod.ext ha hv⟩

/-- A sample set not in the kept list contributes no per-entity call. -/
theorem entityAttrCalls_count_notin (e : AnalysesEnv) (analyses : String)
    (attrs : List (String × List (String × String))) (sset : String)
    (pr : String × String) :
    ∀ kept, sset ∉ kept →
      (entityAttrCalls e analyses attrs kept).count (aAttrCall e analyses sset pr) = 0 := by
  intro kept
  induction kept with
  | nil =>
    intro _
    rfl
  | cons s rest ih =>
    intro hnm
    show ((match attrs.lookup s with
      | some pairs => pairs.map (aAttrCall e analyses s)
      | none => []) ++ entityAttrCalls e analyses attrs rest).count _ = 0
    rw [List.count_append, ih (fun hc => hnm (List.mem_cons_of_mem s hc))]
    cases hlk : attrs.lookup s with
    | some pairs =>
      rw [List.count_eq_zero_of_not_mem]
      intro hm
      obtain ⟨q, _, hq⟩ := List.mem_map.mp hm
      have hss := (aAttrCall_inj e analyses hq).1
      exact hnm (hss ▸ List.mem_cons_self s rest)
    | none => rfl

/-- A sample set absent from the dictionary never receives an `attr_set`. -/
theorem entityAttrCalls_count_none (e : AnalysesEnv) (analyses : String)
    (attrs : List (String × List (String × String))) (sset : String)
    (pr : String × String) (hlk : attrs.lookup sset = none) :
    ∀ kept,
      (entityAttrCalls e analyses attrs kept).count (aAttrCall e analyses sset pr) = 0 := by
  intro kept
  induction kept with
  | nil => rfl
  | cons s rest ih =>
    show ((match attrs.lookup s with
      | some pairs => pairs.map (aAttrCall e analyses s)
      | none => []) ++ entityAttrCalls e analyses attrs rest).count _ = 0
    rw [List.count_append, ih]
    by_cases hs : s = sset
    · subst hs
      rw [hlk]
      rfl
    · cases hlk2 : attrs.lookup s with
      | some pairs =>
        rw [List.count_eq_zero_of_not_mem]
        intro hm
        obtain ⟨q, _, hq⟩ := List.mem_map.mp hm
        exact hs (aAttrCall_inj e analyses hq).1
      | none => rfl

/-- Each attribute pair of a sample set appears once in that set's mapped
attribute calls. -/
theorem count_map_aAttrCall (e : AnalysesEnv) (analyses sset : String)
    (pr : String × String) :
    ∀ pairs : List (String × String), pairs.Nodup → pr ∈ pairs →
      (pairs.map (aAttrCall e analyses sset)).count (aAttrCall e analyses sset pr) = 1 := by
  intro pairs
  induction pairs with
  | nil =>
    intro _ hm
    exact absurd hm (List.not_mem_nil pr)
  | cons q t ih =>
    intro hnd hm
    rcases List.mem_cons.mp hm with rfl | hmt
    · rw [List.map_cons, List.count_cons_self]
      rw [List.count_eq_zero_of_not_mem]
      intro hmm
      obtain ⟨x, hx, hxe⟩ := List.mem_map.mp hmm
      have := (aAttrCall_inj e analyses hxe).2
      exact (List.nodup_cons.mp hnd).1 (this ▸ hx)
    · rw [List.map_cons, List.count_cons_of_ne, ih (List.nodup_cons.mp hnd).2 hmt]
      intro hcontra
      have := (aAttrCall_inj e analyses hcontra.symm).2
      exact (List.nodup_cons.mp hnd).1 (this ▸ hmt)

/-- A kept sample set with an attribute row receives each of its attribute
pairs exactly once. -/
theorem entityAttrCalls_count_one (e : AnalysesEnv) (analyses : String)
    (attrs : List (String × List (String × String))) (sset : String)
    (pairs : List (String × String)) (pr : String × String)
    (hlk : attrs.lookup sset = some pairs) (hpn : pairs.Nodup) (hpr : pr ∈ pairs) :
    ∀ kept, kept.Nodup → sset ∈ kept →
      (entityAttrCalls e analyses attrs kept).count (aAttrCall e analyses sset pr) = 1 := by
  intro kept
  induction kept with
  | nil =>
    intro _ hm
    exact absurd hm (List.not_mem_nil sset)
  | cons s rest ih =>
    intro hnd hm
    show ((match attrs.lookup s with
      | some pairs => pairs.map (aAttrCall e analyses s)
      | none => []) ++ entityAttrCalls e analyses attrs rest).count _ = 1
    rw [List.count_append]
    rcases List.mem_cons.mp hm with rfl | hmr
    · rw [entityAttrCalls_count_notin e analyses attrs sset pr rest
        (List.nodup_cons.mp hnd).1]
      simp only [hlk]
      rw [count_map_aAttrCall e analyses sset pr pairs hpn hpr]
    · rw [ih (List.nodup_cons.mp hnd).2 hmr]
      cases hlk2 : attrs.lookup s with
      | some pairs2 =>
        rw [List.count_eq_zero_of_not_mem]
        intro hmm
        obtain ⟨q, _, hq⟩ := List.mem_map.mp hmm
        have hss := (aAttrCall_inj e analyses hq).1
        exact (List.nodup_cons.mp hnd).1 (hss ▸ hmr)
      | none => rfl

/-- A yielded element of the keep/skip decision is the inspected name. -/
theorem ssetKeep_eq_some (s b y : String) (h : ssetKeep s b = some y) : y = s := by
  simp only [ssetKeep] at h
  split at h
  · exact Option.noConfusion h
  · split at h
    · exact (Option.some.inj h).symm
    · split at h
      · exact (Option.some.inj h).symm
      · split at h
        · exact (Option.some.inj h).symm
        · exact Option.noConfusion h

/-- The generator yields a sublist of the server list. -/
theorem ssetStream_sublist (l : List String) (u : Option (List String)) :
    ((ssetStream l u).1).Sublist l := by
  match u with
  | some us => exact List.filter_sublist l
  | none =>
    show (ssetDefaultStream l).1.Sublist l
    induction l with
    | nil => exact List.Sublist.refl []
    | cons s rest ih =>
      cases hrev : (pySplit '-' (pyLower s)).reverse with
      | nil =>
        have heq : ssetDefaultStream (s :: rest) = ([], false) := by
          simp only [ssetDefaultStream, hrev]
        rw [heq]
        exact List.nil_sublist _
      | cons a tl =>
        cases tl with
        | nil =>
          have heq : ssetDefaultStream (s :: rest) = ([], false) := by
            simp only [ssetDefaultStream, hrev]
          rw [heq]
          exact List.nil_sublist _
        | cons b t =>
          rcases hrest : ssetDefaultStream rest with ⟨tl2, ok⟩
          have ih2 : tl2.Sublist rest := by
            rw [hrest] at ih
            exact ih
          cases hkeep : ssetKeep s b with
          | some y =>
            have heq : ssetDefaultStream (s :: rest) = (y :: tl2, ok) := by
              simp only [ssetDefaultStream, hrev, hrest, hkeep]
            rw [heq, ssetKeep_eq_some s b y hkeep]
            exact List.Sublist.cons₂ s ih2
          | none =>
            have heq : ssetDefaultStream (s :: rest) = (tl2, ok) := by
              simp only [ssetDefaultStream, hrev, hrest, hkeep]
            rw [heq]
            exact List.Sublist.cons s ih2

/-- In a completing run, the entity-level `attr_set` calls of the trace are
exactly the per-entity attribute calls of the copy loop. -/
theorem C4_body_filter (e : AnalysesEnv) (N : String)
    (hc : (analysesBody e N).2 = .completed) :
    (analysesBody e N).1.filter isEntityAttr =
      entityAttrCalls e N (load_attributes e.attrLines)
        (ssetStream e.serverSsets e.user_ssets).1 := by
  by_cases h1 : e.stddataExists = true
  · by_cases h2 : (e.targetExists && !e.askDelete) = true
    · exfalso
      have hrun : (analysesBody e N).2 = .exited 0 := by
        unfold analysesBody
        rw [h1, h2]
        rfl
      rw [hrun] at hc
      exact Outcome.noConfusion hc
    · by_cases h3 : (ssetStream e.serverSsets e.user_ssets).2 = true
      · have hrun : analysesBody e N =
            (analysesPre e N ++ [aSuperviseCall e N], .completed) := by
          unfold analysesBody
          rw [h1, Bool.eq_false_iff.mpr h2, h3]
          rfl
        rw [hrun]
        show (analysesPre e N ++ [aSuperviseCall e N]).filter isEntityAttr = _
        unfold analysesPre
        simp only [List.filter_append]
        rw [show List.filter isEntityAttr
            [["space_exists", "-p", e.fromproject, "-w", "stddata__" ++ e.datestamp],
             ["space_exists", "-p", e.toproject, "-w", N]] = [] from rfl]
        have hdelA : List.filter isEntityAttr
            (if e.targetExists = true then
              [["space_delete", "-p", e.toproject, "-w", N]] else []) = [] := by
          by_cases hse : e.targetExists = true
          · rw [if_pos hse]
            rfl
          · rw [if_neg hse]
            rfl
        rw [hdelA]
        rw [show List.filter isEntityAttr
            [["space_new", "-p", e.toproject, "-w", N],
             ["space_set_acl", "-p", e.toproject, "-w", N,
              "-r", "OWNER", "--users", "GROUP_broadgdac@firecloud.org"],
             ["attr_set", "-p", e.toproject, "-w", N,
              "-a", "data_version", "-v", e.datestamp],
             ["attr_set", "-p", e.toproject, "-w", N, "-a", "package", "-v", "true"]] =
            [] from rfl]
        rw [filter_map_eq_nil isEntityAttr (aConfigCall e N) (get_configs e.workflowLines)
          (fun x => rfl)]
        rw [show List.filter isEntityAttr
            [["sset_list", "-p", e.fromproject, "-w", "stddata__" ++ e.datestamp]] =
            [] from rfl]
        rw [aEntityBlocks_filter_attr e N (load_attributes e.attrLines)
          (ssetStream e.serverSsets e.user_ssets).1]
        rw [show List.filter isEntityAttr [aSuperviseCall e N] = ([] : List Call)
            from rfl]
        simp
      · exfalso
        have hrun : (analysesBody e N).2 = .pyError "IndexError: list index out of range" := by
          unfold analysesBody
          rw [h1, Bool.eq_false_iff.mpr h2, Bool.eq_false_iff.mpr h3]
          rfl
        rw [hrun] at hc
        exact Outcome.noConfusion hc
  · exfalso
    have hrun : (analysesBody e N).2 = .exited 1 := by
      unfold analysesBody
      rw [Bool.eq_false_iff.mpr h1]
      rfl
    rw [hrun] at hc
    exact Outcome.noConfusion hc

/-- C4: `load_attributes` parses the tab-separated file with its header row
into a dictionary mapping each row's first-column value to the pairing of
the remaining column names with that row's values (first conjunct, for a
table with pairwise-distinct keys and blank lines ignored); in a completing
analyses run, the entity-level `attr_set` calls are exactly the per-entity
attribute calls of the copy loop (second conjunct); each attribute pair of
a copied sample set present in the dictionary is set exactly once (third
conjunct); and a sample set absent from the dictionary never receives an
`attr_set` (fourth conjunct). -/
theorem C4_load_attributes :
    (∀ (header : String) (rows : List String) (line : String),
      line ∈ rows → line ≠ "" →
      ((rows.filter (fun l => l ≠ "")).map (fun l => (pySplit '\t' l).headD "")).Nodup →
      (load_attributes (header :: rows)).lookup ((pySplit '\t' line).headD "") =
        some (((pySplit '\t' header).drop 1).zip ((pySplit '\t' line).drop 1))) ∧
    (∀ e : AnalysesEnv, (analyses_main e).2 = .completed →
      ∃ N, (analyses_main e).1.filter isEntityAttr =
        entityAttrCalls e N (load_attributes e.attrLines)
          (ssetStream e.serverSsets e.user_ssets).1) ∧
    (∀ (e : AnalysesEnv) (N sset : String) (pairs : List (String × String))
      (pr : String × String),
      e.serverSsets.Nodup →
      (load_attributes e.attrLines).lookup sset = some pairs →
      pairs.Nodup → pr ∈ pairs →
      sset ∈ (ssetStream e.serverSsets e.user_ssets).1 →
      (entityAttrCalls e N (load_attributes e.attrLines)
        (ssetStream e.serverSsets e.user_ssets).1).count (aAttrCall e N sset pr) = 1) ∧
    (∀ (e : AnalysesEnv) (N sset : String) (pr : String × String)
      (kept : List String),
      (load_attributes e.attrLines).lookup sset = none →
      (entityAttrCalls e N (load_attributes e.attrLines) kept).count
        (aAttrCall e N sset pr) = 0) := by
  refine ⟨?_, ?_, ?_, ?_⟩
  · intro header rows line hl hne hnd
    show (loadAttrRows (pySplit '\t' header) []
      (rows.filter (fun l => l ≠ ""))).lookup _ = _
    exact loadAttrRows_lookup_found (pySplit '\t' header) _ [] line
      (List.mem_filter.mpr ⟨hl, decide_eq_true hne⟩) hnd
  · intro e hc
    match hu : e.user_ssets with
    | some (s :: rest) =>
      exfalso
      have hrun : (analyses_main e).2 =
          .pyError "TypeError: object of type int and list cannot be compared or measured by len" := by
        unfold analyses_main
        rw [hu]
      rw [hrun] at hc
      exact Outcome.noConfusion hc
    | some [] =>
      have hmain : analyses_main e = analysesBody e ("awg_" ++ "" ++ "__" ++ e.datestamp) := by
        unfold analyses_main
        rw [hu]
      rw [hmain] at hc ⊢
      have hb := C4_body_filter e _ hc
      rw [hu] at hb
      exact ⟨_, hb⟩
    | none =>
      have hmain : analyses_main e = analysesBody e ("analyses" ++ "__" ++ e.datestamp) := by
        unfold analyses_main
        rw [hu]
      rw [hmain] at hc ⊢
      have hb := C4_body_filter e _ hc
      rw [hu] at hb
      exact ⟨_, hb⟩
  · intro e N sset pairs pr hsrv hlk hpn hpr hmem
    exact entityAttrCalls_count_one e N _ sset pairs pr hlk hpn hpr _
      ((ssetStream_sublist e.serverSsets e.user_ssets).nodup hsrv) hmem
  · intro e N sset pr kept hlk
    exact entityAttrCalls_count_none e N _ sset pr hlk kept

/-- C4 witness: the first conjunct of the theorem at a concrete two-line
attribute file. -/
theorem C4_witness :
    (load_attributes ["k\ta1", "s1\tv1"]).lookup
        ((pySplit '\t' "s1\tv1").headD "") =
      some (((pySplit '\t' "k\ta1").drop 1).zip ((pySplit '\t' "s1\tv1").drop 1)) :=
  C4_load_attributes.1 "k\ta1" ["s1\tv1"] "s1\tv1" (by decide) (by decide) (by decide)
